import Mathlib

/-!
# Session registry and scheduled-message cron of `server.js`

A shallow embedding of the in-memory core of `src/server.js`:

* the `sessions` object and the module variable `scheduledCron`;
* `createSession` with the four listeners it wires (`qr`, `ready`,
  `auth_failure`, `disconnected`);
* `startScheduledCron` / `stopScheduledCron` and the callback handed to
  `cron.schedule`;
* the `POST /send-now` handler.

Modelling conventions.

* `sessions` is a list of entries in `for ... in` enumeration order, which is
  insertion order for ordinary string keys such as the UUIDs minted by
  `/session/new`.  Integer-like keys, which JavaScript enumerates first, and
  keys that name a property of `Object.prototype` (`__proto__`, `constructor`,
  `toString`, ...) are outside the model.  A JavaScript object has one value
  per key, so the well-formed registries are those whose keys are pairwise
  distinct (`KeysNodup`); every state the process reaches has such a registry
  (`run_wellFormed`).
* A field of a request body is any JSON value.  The code looks at such a
  value in three ways only: its truthiness, whether it is a string, and its
  conversion to a string (as a property key or inside a template literal),
  which throws for an object with an own `toString` property.  `BodyValue`
  records exactly these.
* A dispatch call resolves with any value or rejects with any value, `null`
  and `undefined` included.
* A handler that throws is abandoned at the throw; the process goes on with
  the state as the handler left it.
* `createSession` is called with a string, and `new Client(...)` and
  `res.json(...)` are taken to succeed.
* A session object is identified by its `client` handle: `createSession`
  allocates one `new Client` per object.  Objects that left the registry but
  are still referenced by a suspended `async` function are kept in
  `detached`.
* Every `await processCombinedMessages(...)` is a suspension point.  The part
  of a handler before the `await` and the part after it are separate
  functions; the dispatch service itself (`./sendMessage`) is a parameter: the
  outcome of a call is supplied from outside.
* Console output, QR image rendering, the `sessions.json` file and the bearer
  token middleware are not part of the model.
-/

namespace WhatsappBot

/-! ## Data model -/

/-- The four strings the code stores in `session.status`. -/
inductive Status where
  | INITIALIZING
  | QR_READY
  | READY
  | AUTH_FAILURE
  deriving DecidableEq, Repr

/-- A value taken from a JSON request body, or the value of a property that
may be missing.  `absent` is `undefined`; `string s` is a string; `other`
stands for every other JSON value and records its truthiness and its
conversion to a string, `none` when the conversion throws a `TypeError`:
`null` is `other false (some "null")`, `true` is `other true (some "true")`,
the number `123` is `other true (some "123")`, the array `["S1"]` is
`other true (some "S1")`, the object `{}` is
`other true (some "[object Object]")`, and an object with an own `toString`
property, which JSON can only make non-callable, is `other true none`. -/
inductive BodyValue where
  | absent
  | string (s : String)
  | other (isTruthy : Bool) (text : Option String)
  deriving DecidableEq, Repr

/-- JavaScript truthiness, as in `!sheetName`, `rawMode || ...` and
`session.sheetToSchedule && ...`. -/
def truthy : BodyValue → Bool
  | .absent => false
  | .string s => s != ""
  | .other isTruthy _ => isTruthy

/-- Conversion to a string, as in `sessions[sessionId]` and in a template
literal; `none` when it throws. -/
def toText : BodyValue → Option String
  | .absent => some "undefined"
  | .string s => some s
  | .other _ text => text

/-- One value of the `sessions` object.  `sheetToSchedule` and
`spreadsheetIdToSchedule` are properties that are absent until `/send-now`
sets them and absent again after `delete`. -/
structure Session where
  client : Nat
  qr : Option String
  status : Status
  sheetToSchedule : BodyValue := .absent
  spreadsheetIdToSchedule : BodyValue := .absent
  deriving DecidableEq, Repr

/-- The `options` argument of `processCombinedMessages`. -/
structure Options where
  instantMode : Bool
  scheduledMode : Bool
  combinedMode : Bool
  deriving DecidableEq, Repr

/-- One invocation `processCombinedMessages(client, sheetName, options, spreadsheetId)`. -/
structure Call where
  client : Nat
  sheetName : BodyValue
  options : Options
  spreadsheetId : BodyValue
  deriving DecidableEq, Repr

/-- The value found in `result.scheduledMessagesRemaining`. -/
inductive JsVal where
  | undefined
  | number (n : Int)
  | string (s : String)
  deriving DecidableEq, Repr

/-- What a dispatch call resolves with: a falsy value, or an object. -/
inductive DispatchResult where
  | nothing
  | object (scheduledMessagesRemaining : JsVal)
  deriving DecidableEq, Repr

/-- What a dispatch call rejects with: `null` or `undefined`, on which
reading `err.message` throws, or any other value, with its `message` (the
empty string when it has none). -/
inductive Rejection where
  | nullish
  | error (message : String)
  deriving DecidableEq, Repr

/-- How a dispatch call ends. -/
inductive Outcome where
  | resolved (result : DispatchResult)
  | rejected (reason : Rejection)
  deriving DecidableEq, Repr

/-- The body of a `POST /send-now` request. -/
structure Request where
  sessionId : BodyValue
  mode : BodyValue
  sheetName : BodyValue
  spreadsheetId : BodyValue
  deriving DecidableEq, Repr

/-- The answers `/send-now` can give: 400, 403, 200 and 500. -/
inductive Response where
  | badRequest
  | notReady
  | ok (mode : String) (result : DispatchResult) (schedulingMessage : Bool)
  | serverError (message : String)
  deriving DecidableEq, Repr

/-- How the part of `/send-now` before the `await` ends: with an answer, with
an exception, or suspended on the dispatch call it made. -/
inductive Began where
  | answered (response : Response)
  | threw
  | suspended
  deriving DecidableEq, Repr

/-- What an `async` function suspended at `await processCombinedMessages`
still holds: the captured `session` object (by its key and client handle)
and, for the cron callback, the keys the `for ... in` loop has yet to visit. -/
inductive Continuation where
  | sendNow (sessionId : String) (client : Nat) (mode : String)
  | cron (sessionId : String) (client : Nat) (rest : List String)
  deriving DecidableEq, Repr

/-- A dispatch call that has been started and has not yet settled. -/
structure InFlight where
  call : Call
  cont : Continuation
  deriving DecidableEq, Repr

abbrev Registry := List (String × Session)

/-- The module state: `sessions`, `scheduledCron`, the tasks created by
`cron.schedule` that have not been stopped, the suspended dispatch calls, and
two logs: every dispatch invocation with the key of the session it was made
for, and every response sent. -/
structure State where
  sessions : Registry := []
  detached : List (String × Session) := []
  scheduledCron : Option Nat := none
  activeTasks : List Nat := []
  nextTask : Nat := 0
  nextClient : Nat := 0
  pending : List InFlight := []
  calls : List (String × Call) := []
  responses : List Response := []
  deriving DecidableEq, Repr

/-- The exception a listener throws when `sessions[sessionId]` is `undefined`. -/
inductive JsError where
  | typeError
  deriving DecidableEq, Repr

/-! ## The `sessions` object -/

/-- Property read `sessions[sessionId]`. -/
def getSession : Registry → String → Option Session
  | [], _ => none
  | (k, v) :: rest, sessionId => if k = sessionId then some v else getSession rest sessionId

/-- Assignment `sessions[sessionId] = v`: an existing key keeps its place. -/
def assign : Registry → String → Session → Registry
  | [], sessionId, v => [(sessionId, v)]
  | (k, w) :: rest, sessionId, v =>
    if k = sessionId then (k, v) :: rest else (k, w) :: assign rest sessionId v

/-- Statement `delete sessions[sessionId]`. -/
def remove (sessions : Registry) (sessionId : String) : Registry :=
  sessions.filter (fun e => e.1 ≠ sessionId)

/-- A write through `sessions[sessionId]` to the object stored there. -/
def modify (sessions : Registry) (sessionId : String) (f : Session → Session) : Registry :=
  sessions.map (fun e => if e.1 = sessionId then (e.1, f e.2) else e)

/-- A write to a captured session object, wherever it now lives. -/
def modifyObject (entries : List (String × Session)) (sessionId : String) (client : Nat)
    (f : Session → Session) : List (String × Session) :=
  entries.map (fun e => if e.1 = sessionId ∧ e.2.client = client then (e.1, f e.2) else e)

/-- A read of a captured session object, wherever it now lives. -/
def findObject : List (String × Session) → String → Nat → Option Session
  | [], _, _ => none
  | (k, v) :: rest, sessionId, client =>
    if k = sessionId ∧ v.client = client then some v else findObject rest sessionId client

/-- The keys of a registry are pairwise distinct. -/
def KeysNodup (sessions : Registry) : Prop := (sessions.map Prod.fst).Nodup

instance (sessions : Registry) : Decidable (KeysNodup sessions) := by
  unfold KeysNodup; infer_instance

/-! ## `createSession` and its listeners -/

/-- Function `createSession(sessionId)`: a new client, and the entry
`{ client, qr: null, status: 'INITIALIZING' }` stored under `sessionId`,
with no check whether the key is already in use.  An object that is
overwritten stays reachable from suspended functions. -/
def createSession (st : State) (sessionId : String) : State :=
  { st with
    sessions := assign st.sessions sessionId
      { client := st.nextClient, qr := none, status := .INITIALIZING }
    detached := (st.sessions.filter (fun e => e.1 = sessionId)) ++ st.detached
    nextClient := st.nextClient + 1 }

/-- The two assignments of the `qr` listener. -/
def setQr (qr : String) (s : Session) : Session :=
  { s with qr := some qr, status := .QR_READY }

/-- The assignment of a listener that writes only `status`. -/
def setStatus (status : Status) (s : Session) : Session :=
  { s with status := status }

/-- Listener `client.on('qr', ...)`: writes `qr` and `status` through
`sessions[sessionId]`, which throws when the entry is gone. -/
def onQr (st : State) (sessionId : String) (qr : String) : Except JsError State :=
  match getSession st.sessions sessionId with
  | none => .error .typeError
  | some _ => .ok { st with sessions := modify st.sessions sessionId (setQr qr) }

/-- Listener `client.on('ready', ...)`. -/
def onReady (st : State) (sessionId : String) : Except JsError State :=
  match getSession st.sessions sessionId with
  | none => .error .typeError
  | some _ => .ok { st with sessions := modify st.sessions sessionId (setStatus .READY) }

/-- Listener `client.on('auth_failure', ...)`. -/
def onAuthFailure (st : State) (sessionId : String) : Except JsError State :=
  match getSession st.sessions sessionId with
  | none => .error .typeError
  | some _ =>
    .ok { st with sessions := modify st.sessions sessionId (setStatus .AUTH_FAILURE) }

/-- Listener `client.on('disconnected', ...)`: `delete sessions[sessionId]`. -/
def onDisconnected (st : State) (sessionId : String) : Except JsError State :=
  .ok { st with
        sessions := remove st.sessions sessionId
        detached := (st.sessions.filter (fun e => e.1 = sessionId)) ++ st.detached }

/-- The lifecycle events a client emits. -/
inductive Event where
  | qr (payload : String)
  | ready
  | authFailure
  | disconnected
  deriving DecidableEq, Repr

/-- Delivery of one event to the listeners wired for `sessionId`. -/
def handleEvent (st : State) (sessionId : String) : Event → Except JsError State
  | .qr payload => onQr st sessionId payload
  | .ready => onReady st sessionId
  | .authFailure => onAuthFailure st sessionId
  | .disconnected => onDisconnected st sessionId

/-! ## The cron -/

/-- Function `startScheduledCron()`: when `scheduledCron` is null,
`cron.schedule` creates a task and the variable holds it. -/
def startScheduledCron (st : State) : State :=
  match st.scheduledCron with
  | none =>
    { st with
      scheduledCron := some st.nextTask
      activeTasks := st.nextTask :: st.activeTasks
      nextTask := st.nextTask + 1 }
  | some _ => st

/-- Function `stopScheduledCron()`: when `scheduledCron` is set, the task is
stopped and the variable becomes null. -/
def stopScheduledCron (st : State) : State :=
  match st.scheduledCron with
  | some task =>
    { st with
      activeTasks := st.activeTasks.filter (fun t => t ≠ task)
      scheduledCron := none }
  | none => st

/-- The options of the cron callback: scheduled mode only. -/
def scheduledOnly : Options :=
  { instantMode := false, scheduledMode := true, combinedMode := false }

/-- The guard of the loop body, for an entry that exists:
`session.status === 'READY' && session.sheetToSchedule && session.spreadsheetIdToSchedule`. -/
def eligible (s : Session) : Bool :=
  s.status == .READY && truthy s.sheetToSchedule && truthy s.spreadsheetIdToSchedule

/-- The call the cron callback makes for an eligible session. -/
def cronCall (s : Session) : Call :=
  { client := s.client
    sheetName := s.sheetToSchedule
    options := scheduledOnly
    spreadsheetId := s.spreadsheetIdToSchedule }

/-- An invocation of the dispatch service, before it suspends its caller. -/
def record (st : State) (sessionId : String) (call : Call) : State :=
  { st with calls := st.calls ++ [(sessionId, call)] }

/-- An invocation of the dispatch service on which the caller suspends. -/
def invoke (st : State) (sessionId : String) (call : Call) (cont : Continuation) : State :=
  { st with
    calls := st.calls ++ [(sessionId, call)]
    pending := st.pending ++ [{ call := call, cont := cont }] }

/-- The test `result && typeof result.scheduledMessagesRemaining === 'number'
&& result.scheduledMessagesRemaining === 0`. -/
def reportsZero : DispatchResult → Bool
  | .object (.number n) => n == 0
  | _ => false

/-- The two `delete` statements of the cron callback. -/
def clearSchedule (s : Session) : Session :=
  { s with sheetToSchedule := .absent, spreadsheetIdToSchedule := .absent }

/-- The test `Object.values(sessions).some(s => s.sheetToSchedule)`. -/
def someScheduled (sessions : Registry) : Bool :=
  sessions.any (fun e => truthy e.2.sheetToSchedule)

/-- The captured `session` object as it is now: in the registry, or detached. -/
def capturedObject (st : State) (sessionId : String) (client : Nat) : Option Session :=
  match findObject st.sessions sessionId client with
  | some s => some s
  | none => findObject st.detached sessionId client

/-- The value of `session.sheetToSchedule` read from the captured object. -/
def capturedSheet (st : State) (sessionId : String) (client : Nat) : BodyValue :=
  match capturedObject st sessionId client with
  | some s => s.sheetToSchedule
  | none => .absent

/-- The cron callback after its `await`, up to the end of the `try`
statement.  On a zero result the template literal of the log line converts
`session.sheetToSchedule` to a string; if that throws, the `catch` clause
takes over and nothing is deleted.  Otherwise the two properties are deleted
from the captured object and the cron is stopped when no session of the
registry has a sheet left.  A rejection goes to the `catch` clause. -/
def afterScheduledDispatch (st : State) (sessionId : String) (client : Nat) : Outcome → State
  | .resolved result =>
    if reportsZero result then
      match toText (capturedSheet st sessionId client) with
      | none => st
      | some _ =>
        let st1 : State :=
          { st with
            sessions := modifyObject st.sessions sessionId client clearSchedule
            detached := modifyObject st.detached sessionId client clearSchedule }
        if someScheduled st1.sessions then st1 else stopScheduledCron st1
    else st
  | .rejected _ => st

/-- The `catch` clauses read `err.message`, which throws when the dispatch
call rejected with `null` or `undefined`; the function is then abandoned. -/
def catchThrows : Outcome → Bool
  | .rejected .nullish => true
  | _ => false

/-- The `for (const sessionId in sessions)` loop of the cron callback, run
until it suspends at the first `await`, is abandoned, or runs out of keys.
The log line before the `try` converts `session.sheetToSchedule` to a string;
if that throws, the callback is abandoned. -/
def cronLoop (st : State) : List String → State
  | [] => st
  | sessionId :: rest =>
    match getSession st.sessions sessionId with
    | some session =>
      if eligible session then
        match toText session.sheetToSchedule with
        | none => st
        | some _ => invoke st sessionId (cronCall session) (.cron sessionId session.client rest)
      else cronLoop st rest
    | none => cronLoop st rest

/-- The same loop when every dispatch call settles before anything else
happens: `outcome sessionId` is how the call made for `sessionId` ends. -/
def cronRun (outcome : String → Outcome) (st : State) : List String → State
  | [] => st
  | sessionId :: rest =>
    match getSession st.sessions sessionId with
    | some session =>
      if eligible session then
        match toText session.sheetToSchedule with
        | none => st
        | some _ =>
          if catchThrows (outcome sessionId) then
            afterScheduledDispatch (record st sessionId (cronCall session))
              sessionId session.client (outcome sessionId)
          else
            cronRun outcome
              (afterScheduledDispatch (record st sessionId (cronCall session))
                sessionId session.client (outcome sessionId))
              rest
      else cronRun outcome st rest
    | none => cronRun outcome st rest

/-- One uninterrupted run of the callback given to `cron.schedule`. -/
def cronCallback (outcome : String → Outcome) (st : State) : State :=
  cronRun outcome st (st.sessions.map Prod.fst)

/-! ## `POST /send-now` -/

/-- Method `toLowerCase()` on the mode string.  The three literals it is
compared with are ASCII and no character outside ASCII lower-cases to an
ASCII letter occurring in them, so the ASCII mapping decides the comparisons. -/
def toLowerCase (s : String) : String :=
  String.mk (s.data.map Char.toLower)

/-- The expression `(rawMode || 'combined').toLowerCase()`: only a string has
the method, so a truthy value that is not a string makes the call throw
(`none`). -/
def normalizeMode (rawMode : BodyValue) : Option String :=
  if truthy rawMode then
    match rawMode with
    | .string s => some (toLowerCase s)
    | _ => none
  else some (toLowerCase "combined")

/-- The `if / else if / else` chain that builds `options` from `mode`. -/
def optionsOf (mode : String) : Options :=
  if mode = "instant" then
    { instantMode := true, scheduledMode := false, combinedMode := false }
  else if mode = "scheduled" then
    { instantMode := false, scheduledMode := true, combinedMode := false }
  else
    { instantMode := false, scheduledMode := false, combinedMode := true }

/-- The two assignments `session.sheetToSchedule = sheetName` and
`session.spreadsheetIdToSchedule = spreadsheetId`. -/
def setSchedule (sheetName spreadsheetId : BodyValue) (s : Session) : Session :=
  { s with sheetToSchedule := sheetName, spreadsheetIdToSchedule := spreadsheetId }

/-- The call `/send-now` makes. -/
def sendNowCall (session : Session) (req : Request) (mode : String) : Call :=
  { client := session.client
    sheetName := req.sheetName
    options := optionsOf mode
    spreadsheetId := req.spreadsheetId }

/-- The handler of `POST /send-now` up to its `await`, statement by
statement: the 400 test on the three required fields; the lookup
`sessions[sessionId]`, which converts `sessionId` to a property key; the 403
test; the lower-casing of the mode; and, when the mode is `scheduled` or
`combined`, the two assignments to the session, the log line whose template
literal converts `sheetName` to a string, and `startScheduledCron()`.  Then the
dispatch service is invoked and the handler suspends. -/
def sendNowBegin (st : State) (req : Request) : State × Began :=
  if !truthy req.sessionId || !truthy req.sheetName || !truthy req.spreadsheetId then
    (st, .answered .badRequest)
  else
    match toText req.sessionId with
    | none => (st, .threw)
    | some sessionId =>
      match getSession st.sessions sessionId with
      | none => (st, .answered .notReady)
      | some session =>
        if session.status ≠ .READY then (st, .answered .notReady)
        else
          match normalizeMode req.mode with
          | none => (st, .threw)
          | some mode =>
            if mode = "scheduled" ∨ mode = "combined" then
              match toText req.sheetName with
              | none =>
                ({ st with
                   sessions := modify st.sessions sessionId
                     (setSchedule req.sheetName req.spreadsheetId) },
                 .threw)
              | some _ =>
                (invoke
                  (startScheduledCron
                    { st with
                      sessions := modify st.sessions sessionId
                        (setSchedule req.sheetName req.spreadsheetId) })
                  sessionId (sendNowCall session req mode)
                  (.sendNow sessionId session.client mode),
                 .suspended)
            else
              (invoke st sessionId (sendNowCall session req mode)
                (.sendNow sessionId session.client mode),
               .suspended)

/-- The message of the `TypeError` thrown by a conversion to string. -/
def conversionError : String := "Cannot convert object to primitive value"

/-- The handler of `POST /send-now` after its `await`.  When the call
resolved: a 200 answer with the result, to which the scheduling message is
added when the captured session has a sheet; the template literal of that
message converts `sheetName` to a string and a throw there is caught like a
rejection.  The `catch` clause answers 500 with
`err.message || 'Internal server error'`, and throws itself, without an
answer (`none`), on a rejection with `null` or `undefined`. -/
def sendNowEnd (st : State) (sessionId : String) (client : Nat) (mode : String)
    (sheetName : BodyValue) : Outcome → Option Response
  | .resolved result =>
    if truthy (capturedSheet st sessionId client) then
      match toText sheetName with
      | none => some (.serverError conversionError)
      | some _ => some (.ok mode result true)
    else some (.ok mode result false)
  | .rejected .nullish => none
  | .rejected (.error message) =>
    some (.serverError (if message = "" then "Internal server error" else message))

/-! ## The system as a transition function -/

/-- What can happen to the process, one step at a time. -/
inductive Action where
  /-- A call `createSession(sessionId)` (from `/session/new` or at startup). -/
  | create (sessionId : String)
  /-- A client wired for `sessionId` emits an event. -/
  | event (sessionId : String) (e : Event)
  /-- A `POST /send-now` request arrives and runs up to its `await`. -/
  | request (req : Request)
  /-- The cron task fires and the callback runs up to its first `await`. -/
  | fire
  /-- The `i`-th dispatch call in flight settles and its caller resumes. -/
  | settle (i : Nat) (outcome : Outcome)
  /-- The cron task fires and the whole callback runs without interruption. -/
  | tick (outcome : String → Outcome)

/-- Resumption of a suspended function with the outcome of its dispatch call. -/
def resume (st : State) (outcome : Outcome) (call : Call) : Continuation → State
  | .sendNow sessionId client mode =>
    match sendNowEnd st sessionId client mode call.sheetName outcome with
    | some response => { st with responses := st.responses ++ [response] }
    | none => st
  | .cron sessionId client rest =>
    if catchThrows outcome then afterScheduledDispatch st sessionId client outcome
    else cronLoop (afterScheduledDispatch st sessionId client outcome) rest

/-- One step.  A listener that throws leaves the state as it was; the cron
callback runs only while a task is active. -/
def step (st : State) : Action → State
  | .create sessionId => createSession st sessionId
  | .event sessionId e =>
    match handleEvent st sessionId e with
    | .ok st1 => st1
    | .error _ => st
  | .request req =>
    match sendNowBegin st req with
    | (st1, .answered response) => { st1 with responses := st1.responses ++ [response] }
    | (st1, _) => st1
  | .fire =>
    if st.activeTasks = [] then st else cronLoop st (st.sessions.map Prod.fst)
  | .settle i outcome =>
    match st.pending[i]? with
    | some inFlight =>
      resume { st with pending := st.pending.eraseIdx i } outcome inFlight.call inFlight.cont
    | none => st
  | .tick outcome =>
    if st.activeTasks = [] then st else cronCallback outcome st

/-- The state after a sequence of steps. -/
def run (st : State) (actions : List Action) : State :=
  actions.foldl step st

/-- The state of a freshly started process: no session, no cron. -/
def init : State := {}

/-- The number of dispatch calls in flight for the client of a session. -/
def inFlightFor (st : State) (client : Nat) : Nat :=
  (st.pending.filter (fun p => p.call.client = client)).length

/-! ## Notions used to state the properties -/

/-- The dispatch call resolved with an object whose
`scheduledMessagesRemaining` is the number `0`. -/
def settledZero : Outcome → Bool
  | .resolved result => reportsZero result
  | .rejected _ => false

/-- The keys of the sessions for which the dispatch service was invoked
between two states. -/
def dispatchedSince (before after : State) : List String :=
  (after.calls.drop before.calls.length).map Prod.fst

/-- A session has a registered sheet that converts to a string. -/
def hasReadableSheet (s : Session) : Bool :=
  truthy s.sheetToSchedule && (toText s.sheetToSchedule).isSome

/-- While some session has a registered sheet that converts to a string, the
variable `scheduledCron` is set. -/
def SchedInv (st : State) : Prop :=
  (∃ e ∈ st.sessions, hasReadableSheet e.2 = true) → st.scheduledCron ≠ none

/-- The active cron tasks are exactly the one held by `scheduledCron`, if any. -/
def TimerInv (st : State) : Prop :=
  st.activeTasks = st.scheduledCron.toList

/-- The keys of the registry are pairwise distinct and every client handle in
it was allocated before `nextClient`. -/
def WellFormed (st : State) : Prop :=
  KeysNodup st.sessions ∧ ∀ e ∈ st.sessions, e.2.client < st.nextClient

/-- Settlement of the cron callback's dispatch calls one after the other:
while the call last started is one of the cron callback, it settles with the
outcome given for its session and the callback resumes. -/
def driveCron (outcome : String → Outcome) : Nat → State → State
  | 0, st => st
  | fuel + 1, st =>
    match st.pending.getLast? with
    | some ⟨_, .cron sessionId _ _⟩ =>
      driveCron outcome fuel (step st (.settle (st.pending.length - 1) (outcome sessionId)))
    | _ => st

/-- Direct calls of the two cron functions, next to the steps of the process. -/
inductive CronOp where
  | start
  | stop
  | act (a : Action)

/-- One operation on the cron. -/
def applyOp (st : State) : CronOp → State
  | .start => startScheduledCron st
  | .stop => stopScheduledCron st
  | .act a => step st a

/-- The state after a sequence of operations. -/
def runOps (st : State) (ops : List CronOp) : State :=
  ops.foldl applyOp st

/-- A `/send-now` body for sheet `Sheet1` of spreadsheet `SS1`. -/
def sendReq (sessionId mode : String) : Request :=
  { sessionId := .string sessionId
    mode := .string mode
    sheetName := .string "Sheet1"
    spreadsheetId := .string "SS1" }

/-- The body value of the JSON object `{"toString": 1}`: truthy, and its
conversion to a string throws. -/
def unreadableObject : BodyValue := .other true none

/-- The body value of the JSON number `123`. -/
def number123 : BodyValue := .other true (some "123")

/-- A dispatch result reporting `n` scheduled messages remaining. -/
def remaining (n : Int) : Outcome :=
  .resolved (.object (.number n))

/-- Session `S1` created and ready. -/
def readyS1 : State :=
  run init [.create "S1", .event "S1" .ready]

/-- Session `S1` ready, with `Sheet1` registered by a settled `/send-now`
in scheduled mode: the cron is running and nothing is in flight. -/
def scheduledS1 : State :=
  run readyS1 [.request (sendReq "S1" "scheduled"), .settle 0 (remaining 3)]

/-- Session `S1` removed by `disconnected` while its sheet was registered. -/
def disconnectedS1 : State :=
  run scheduledS1 [.event "S1" .disconnected]

/-- Two sessions: `S1` ready with a registered sheet, `S2` still initializing. -/
def twoSessions : State :=
  run scheduledS1 [.create "S2"]

/-- Two sessions, `S1` and `S2`, both ready and both with `Sheet1`
registered; the cron is running and nothing is in flight. -/
def twoScheduled : State :=
  run scheduledS1
    [.create "S2", .event "S2" .ready, .request (sendReq "S2" "scheduled"),
     .settle 0 (remaining 3)]

/-- The state `twoScheduled` after the cron fired and the call for `S1`
settled: the run of the callback is suspended on its call for `S2`. -/
def midTick : State :=
  run twoScheduled [.fire, .settle 0 (remaining 3)]

/-- A `/send-now` body in scheduled mode for session `S1` whose `sheetName`
is the object `{"toString": 1}`. -/
def unreadableRequest : Request :=
  { sessionId := .string "S1"
    mode := .string "scheduled"
    sheetName := unreadableObject
    spreadsheetId := .string "SS1" }

end WhatsappBot

namespace WhatsappBot

/-! ## Lemmas on the `sessions` object -/

theorem mem_assign {reg : Registry} {sessionId : String} {v : Session} {e : String × Session}
    (h : e ∈ assign reg sessionId v) : e ∈ reg ∨ e = (sessionId, v) := by
  induction reg with
  | nil => simp [assign] at h; exact Or.inr h
  | cons hd tl ih =>
    obtain ⟨k, w⟩ := hd
    unfold assign at h
    split at h
    · rename_i hk
      rcases List.mem_cons.mp h with h1 | h1
      · right; rw [h1, hk]
      · left; exact List.mem_cons_of_mem _ h1
    · rcases List.mem_cons.mp h with h1 | h1
      · left; rw [h1]; exact List.mem_cons_self _ _
      · rcases ih h1 with h2 | h2
        · left; exact List.mem_cons_of_mem _ h2
        · right; exact h2

theorem mem_modify {reg : Registry} {sessionId : String} {f : Session → Session}
    {e : String × Session} (h : e ∈ modify reg sessionId f) :
    e ∈ reg ∨ ∃ s, (e.1, s) ∈ reg ∧ e.2 = f s := by
  unfold modify at h
  obtain ⟨e0, he0, heq⟩ := List.mem_map.mp h
  split at heq
  · right; exact ⟨e0.2, by rw [← heq]; exact he0, by rw [← heq]⟩
  · left; rw [← heq]; exact he0

theorem mem_modifyObject {reg : List (String × Session)} {sessionId : String} {client : Nat}
    {f : Session → Session} {e : String × Session}
    (h : e ∈ modifyObject reg sessionId client f) :
    e ∈ reg ∨ ∃ s, (e.1, s) ∈ reg ∧ e.2 = f s := by
  unfold modifyObject at h
  obtain ⟨e0, he0, heq⟩ := List.mem_map.mp h
  split at heq
  · right; exact ⟨e0.2, by rw [← heq]; exact he0, by rw [← heq]⟩
  · left; rw [← heq]; exact he0

theorem mem_remove {reg : Registry} {sessionId : String} {e : String × Session}
    (h : e ∈ remove reg sessionId) : e ∈ reg := by
  unfold remove at h
  exact (List.mem_filter.mp h).1

theorem someScheduled_iff (reg : Registry) :
    someScheduled reg = true ↔ ∃ e ∈ reg, truthy e.2.sheetToSchedule = true := by
  unfold someScheduled
  simp [List.any_eq_true]

/-! ## Fields the cron functions leave alone -/

@[simp] theorem startScheduledCron_sessions (st : State) :
    (startScheduledCron st).sessions = st.sessions := by
  unfold startScheduledCron; split <;> rfl

@[simp] theorem startScheduledCron_pending (st : State) :
    (startScheduledCron st).pending = st.pending := by
  unfold startScheduledCron; split <;> rfl

@[simp] theorem startScheduledCron_calls (st : State) :
    (startScheduledCron st).calls = st.calls := by
  unfold startScheduledCron; split <;> rfl

@[simp] theorem startScheduledCron_nextClient (st : State) :
    (startScheduledCron st).nextClient = st.nextClient := by
  unfold startScheduledCron; split <;> rfl

@[simp] theorem stopScheduledCron_sessions (st : State) :
    (stopScheduledCron st).sessions = st.sessions := by
  unfold stopScheduledCron; split <;> rfl

@[simp] theorem stopScheduledCron_calls (st : State) :
    (stopScheduledCron st).calls = st.calls := by
  unfold stopScheduledCron; split <;> rfl

@[simp] theorem stopScheduledCron_pending (st : State) :
    (stopScheduledCron st).pending = st.pending := by
  unfold stopScheduledCron; split <;> rfl

@[simp] theorem stopScheduledCron_nextClient (st : State) :
    (stopScheduledCron st).nextClient = st.nextClient := by
  unfold stopScheduledCron; split <;> rfl

theorem startScheduledCron_isSome (st : State) :
    (startScheduledCron st).scheduledCron ≠ none := by
  unfold startScheduledCron
  split
  · simp
  · rename_i t h; simp [h]

/-- Induction over the steps of a run. -/
theorem run_induction (P : State → Prop) (hstep : ∀ st a, P st → P (step st a)) :
    ∀ (actions : List Action) (st : State), P st → P (run st actions) := by
  intro actions
  induction actions with
  | nil => intro st h; exact h
  | cons a rest ih =>
    intro st h
    exact ih (step st a) (hstep st a h)

/-- The loop that suspends only appends to the two lists of calls. -/
theorem cronLoop_preserves (P : State → Prop)
    (hcalls : ∀ st c, P st → P { st with calls := c })
    (hpend : ∀ st p, P st → P { st with pending := p })
    (st : State) (keys : List String) (h : P st) : P (cronLoop st keys) := by
  induction keys with
  | nil => exact h
  | cons k rest ih =>
    unfold cronLoop
    split
    · rename_i session hs
      split
      · split
        · exact h
        · exact hpend { st with calls := st.calls ++ [(k, cronCall session)] }
            (st.pending ++ [{ call := cronCall session, cont := .cron k session.client rest }])
            (hcalls st (st.calls ++ [(k, cronCall session)]) h)
      · exact ih
    · exact ih

/-- The uninterrupted loop is a sequence of call records and settlements. -/
theorem cronRun_preserves (P : State → Prop)
    (hcalls : ∀ st c, P st → P { st with calls := c })
    (hafter : ∀ st sessionId client outcome, P st →
      P (afterScheduledDispatch st sessionId client outcome))
    (outcome : String → Outcome) (keys : List String) :
    ∀ st : State, P st → P (cronRun outcome st keys) := by
  induction keys with
  | nil => intro st h; exact h
  | cons k rest ih =>
    intro st h
    unfold cronRun
    split
    · split
      · split
        · exact h
        · split
          · exact hafter _ _ _ _ (hcalls st _ h)
          · exact ih _ (hafter _ _ _ _ (hcalls st _ h))
      · exact ih _ h
    · exact ih _ h

/-- A property kept by each primitive operation is kept by every step. -/
theorem step_preserves (P : State → Prop)
    (hcreate : ∀ st sessionId, P st → P (createSession st sessionId))
    (hevent : ∀ st sessionId e st1, P st → handleEvent st sessionId e = .ok st1 → P st1)
    (hbegin : ∀ st req, P st → P (sendNowBegin st req).1)
    (hresp : ∀ st r, P st → P { st with responses := r })
    (hpend : ∀ st p, P st → P { st with pending := p })
    (hcalls : ∀ st c, P st → P { st with calls := c })
    (hafter : ∀ st sessionId client outcome, P st →
      P (afterScheduledDispatch st sessionId client outcome))
    (st : State) (a : Action) (h : P st) : P (step st a) := by
  cases a with
  | create sessionId => exact hcreate st sessionId h
  | event sessionId e =>
    show P (match handleEvent st sessionId e with
      | .ok st1 => st1
      | .error _ => st)
    cases hev : handleEvent st sessionId e with
    | ok st1 => exact hevent st sessionId e st1 h hev
    | error err => exact h
  | request req =>
    show P (match sendNowBegin st req with
      | (st1, .answered response) => { st1 with responses := st1.responses ++ [response] }
      | (st1, _) => st1)
    have hb := hbegin st req h
    rcases hsn : sendNowBegin st req with ⟨st1, response | _ | _⟩
    · rw [hsn] at hb; exact hresp _ _ hb
    · rw [hsn] at hb; exact hb
    · rw [hsn] at hb; exact hb
  | fire =>
    show P (if st.activeTasks = [] then st else cronLoop st (st.sessions.map Prod.fst))
    split
    · exact h
    · exact cronLoop_preserves P hcalls hpend st _ h
  | settle i outcome =>
    show P (match st.pending[i]? with
      | some inFlight =>
        resume { st with pending := st.pending.eraseIdx i } outcome inFlight.call inFlight.cont
      | none => st)
    cases hp : st.pending[i]? with
    | none => exact h
    | some inFlight =>
      show P (resume { st with pending := st.pending.eraseIdx i } outcome inFlight.call
        inFlight.cont)
      cases inFlight.cont with
      | sendNow sessionId client mode =>
        simp only [resume]
        split
        · exact hresp { st with pending := st.pending.eraseIdx i } _ (hpend st _ h)
        · exact hpend st _ h
      | cron sessionId client rest =>
        simp only [resume]
        split
        · exact hafter _ _ _ _ (hpend st _ h)
        · exact cronLoop_preserves P hcalls hpend _ _ (hafter _ _ _ _ (hpend st _ h))
  | tick outcome =>
    show P (if st.activeTasks = [] then st else cronCallback outcome st)
    split
    · exact h
    · exact cronRun_preserves P hcalls hafter outcome _ st h

/-- The four shapes of the state after the synchronous part of `/send-now`:
untouched; one more call; the sheet registered and the handler thrown out
before `startScheduledCron()`; the sheet registered, the cron started and one
more call. -/
theorem sendNowBegin_shape (st : State) (req : Request) :
    (sendNowBegin st req).1 = st ∨
    (∃ c p, (sendNowBegin st req).1 = { st with calls := c, pending := p }) ∨
    (∃ sessionId,
      truthy req.sheetName = true ∧ toText req.sheetName = none ∧
      (sendNowBegin st req).2 = .threw ∧
      (sendNowBegin st req).1 =
        { st with
          sessions := modify st.sessions sessionId
            (setSchedule req.sheetName req.spreadsheetId) }) ∨
    (∃ sessionId c p,
      truthy req.sheetName = true ∧ toText req.sheetName ≠ none ∧
      (sendNowBegin st req).1 =
        { startScheduledCron
            { st with
              sessions := modify st.sessions sessionId
                (setSchedule req.sheetName req.spreadsheetId) }
          with calls := c, pending := p }) := by
  unfold sendNowBegin
  split
  · left; rfl
  · rename_i hreq
    simp only [Bool.or_eq_true, Bool.not_eq_true', not_or, Bool.not_eq_false] at hreq
    obtain ⟨⟨_, hsheet⟩, _⟩ := hreq
    split
    · left; rfl
    · split
      · left; rfl
      · split
        · left; rfl
        · split
          · left; rfl
          · split
            · split
              · rename_i htext
                right; right; left
                exact ⟨_, hsheet, htext, rfl, rfl⟩
              · rename_i v htext
                right; right; right
                refine ⟨_, _, _, hsheet, ?_, rfl⟩
                rw [htext]; simp
            · right; left
              exact ⟨_, _, rfl⟩

/-- The three shapes of the state after the cron callback handled a result. -/
theorem afterScheduledDispatch_shape (st : State) (sessionId : String) (client : Nat)
    (outcome : Outcome) :
    afterScheduledDispatch st sessionId client outcome = st ∨
    (someScheduled (modifyObject st.sessions sessionId client clearSchedule) = true ∧
      afterScheduledDispatch st sessionId client outcome =
        { st with
          sessions := modifyObject st.sessions sessionId client clearSchedule
          detached := modifyObject st.detached sessionId client clearSchedule }) ∨
    (someScheduled (modifyObject st.sessions sessionId client clearSchedule) = false ∧
      afterScheduledDispatch st sessionId client outcome =
        stopScheduledCron
          { st with
            sessions := modifyObject st.sessions sessionId client clearSchedule
            detached := modifyObject st.detached sessionId client clearSchedule }) := by
  cases outcome with
  | rejected reason => left; rfl
  | resolved result =>
    by_cases hz : reportsZero result = true
    · cases ht : toText (capturedSheet st sessionId client) with
      | none => left; simp [afterScheduledDispatch, hz, ht]
      | some text =>
        by_cases hsome :
            someScheduled (modifyObject st.sessions sessionId client clearSchedule) = true
        · right; left
          refine ⟨hsome, ?_⟩
          simp [afterScheduledDispatch, hz, ht, hsome]
        · right; right
          refine ⟨by simpa using hsome, ?_⟩
          simp [afterScheduledDispatch, hz, ht, hsome]
    · left
      simp [afterScheduledDispatch, hz]

/-! ## Properties of every session of the registry -/

theorem all_assign {P : Session → Prop} {reg : Registry} {sessionId : String} {v : Session}
    (h : ∀ e ∈ reg, P e.2) (hv : P v) : ∀ e ∈ assign reg sessionId v, P e.2 := by
  intro e he
  rcases mem_assign he with h1 | h1
  · exact h e h1
  · rw [h1]; exact hv

theorem all_modify {P : Session → Prop} {reg : Registry} {sessionId : String}
    {f : Session → Session} (h : ∀ e ∈ reg, P e.2) (hf : ∀ s, P s → P (f s)) :
    ∀ e ∈ modify reg sessionId f, P e.2 := by
  intro e he
  rcases mem_modify he with h1 | ⟨s0, h1, h2⟩
  · exact h e h1
  · rw [h2]; exact hf s0 (h _ h1)

theorem all_modifyObject {P : Session → Prop} {reg : Registry} {sessionId : String}
    {client : Nat} {f : Session → Session} (h : ∀ e ∈ reg, P e.2) (hf : ∀ s, P s → P (f s)) :
    ∀ e ∈ modifyObject reg sessionId client f, P e.2 := by
  intro e he
  rcases mem_modifyObject he with h1 | ⟨s0, h1, h2⟩
  · exact h e h1
  · rw [h2]; exact hf s0 (h _ h1)

/-- A property of sessions that holds of a new session and survives every
write the code makes to a session holds of all sessions after every step. -/
theorem step_all (P : Session → Prop)
    (hfresh : ∀ c, P { client := c, qr := none, status := .INITIALIZING })
    (hqr : ∀ s payload, P s → P { s with qr := some payload, status := .QR_READY })
    (hready : ∀ s, P s → P { s with status := .READY })
    (hfail : ∀ s, P s → P { s with status := .AUTH_FAILURE })
    (hset : ∀ s a b, truthy a = true → P s → P (setSchedule a b s))
    (hclear : ∀ s, P s → P (clearSchedule s))
    (st : State) (a : Action) (h : ∀ e ∈ st.sessions, P e.2) :
    ∀ e ∈ (step st a).sessions, P e.2 := by
  refine step_preserves (fun st => ∀ e ∈ st.sessions, P e.2) ?_ ?_ ?_ ?_ ?_ ?_ ?_ st a h
  · intro st sessionId h
    exact all_assign h (hfresh _)
  · intro st sessionId e st1 h hev
    cases e with
    | qr payload =>
      simp only [handleEvent, onQr] at hev
      split at hev
      · cases hev
      · cases hev
        exact all_modify h (fun s hs => hqr s payload hs)
    | ready =>
      simp only [handleEvent, onReady] at hev
      split at hev
      · cases hev
      · cases hev
        exact all_modify h hready
    | authFailure =>
      simp only [handleEvent, onAuthFailure] at hev
      split at hev
      · cases hev
      · cases hev
        exact all_modify h hfail
    | disconnected =>
      simp only [handleEvent, onDisconnected] at hev
      cases hev
      intro e he
      exact h e (mem_remove he)
  · intro st req h
    rcases sendNowBegin_shape st req with
      h1 | ⟨c, p, h1⟩ | ⟨sid, ha, _, _, h1⟩ | ⟨sid, c, p, ha, _, h1⟩
    · rw [h1]; exact h
    · rw [h1]; exact h
    · rw [h1]
      exact all_modify h (fun s hs => hset s _ _ ha hs)
    · rw [h1]
      simp only [startScheduledCron_sessions]
      exact all_modify h (fun s hs => hset s _ _ ha hs)
  · intro st r h; exact h
  · intro st p h; exact h
  · intro st c h; exact h
  · intro st sessionId client outcome h
    rcases afterScheduledDispatch_shape st sessionId client outcome with h1 | ⟨_, h1⟩ | ⟨_, h1⟩
    · rw [h1]; exact h
    · rw [h1]; exact all_modifyObject h hclear
    · rw [h1]
      simp only [stopScheduledCron_sessions]
      exact all_modifyObject h hclear

/-- A session whose status is `QR_READY` holds a QR payload, in every state
the process can reach. -/
theorem qrReady_has_qr (actions : List Action) :
    ∀ e ∈ (run init actions).sessions, e.2.status = .QR_READY → e.2.qr ≠ none := by
  refine run_induction (fun st => ∀ e ∈ st.sessions, e.2.status = .QR_READY → e.2.qr ≠ none)
    ?_ actions init ?_
  · intro st a h
    refine step_all (fun s => s.status = .QR_READY → s.qr ≠ none) ?_ ?_ ?_ ?_ ?_ ?_ st a h
    · intro c hc; cases hc
    · intro s payload _ _; simp
    · intro s _ hc; cases hc
    · intro s _ hc; cases hc
    · intro s a b _ hs; exact hs
    · intro s hs; exact hs
  · intro e he; cases he

/-! ## The cron runs while a readable sheet is registered -/

/-- Shape of the state after a listener that did not throw: only `sessions`
and `detached` change, the keys left were there before, and every session
left has the client and the sheet it had. -/
theorem handleEvent_ok {st st1 : State} {sessionId : String} {e : Event}
    (hev : handleEvent st sessionId e = .ok st1) :
    (∃ S D, st1 = { st with sessions := S, detached := D }) ∧
    (∀ e1 ∈ st1.sessions, ∃ e0 ∈ st.sessions,
      e1.2.sheetToSchedule = e0.2.sheetToSchedule ∧ e1.2.client = e0.2.client) := by
  cases e with
  | qr payload =>
    simp only [handleEvent, onQr] at hev
    split at hev
    · cases hev
    · cases hev
      refine ⟨⟨_, st.detached, rfl⟩, ?_⟩
      intro e1 he1
      dsimp only at he1
      rcases mem_modify he1 with h1 | ⟨s0, h1, h2⟩
      · exact ⟨e1, h1, rfl, rfl⟩
      · exact ⟨_, h1, by rw [h2]; rfl, by rw [h2]; rfl⟩
  | ready =>
    simp only [handleEvent, onReady] at hev
    split at hev
    · cases hev
    · cases hev
      refine ⟨⟨_, st.detached, rfl⟩, ?_⟩
      intro e1 he1
      dsimp only at he1
      rcases mem_modify he1 with h1 | ⟨s0, h1, h2⟩
      · exact ⟨e1, h1, rfl, rfl⟩
      · exact ⟨_, h1, by rw [h2]; rfl, by rw [h2]; rfl⟩
  | authFailure =>
    simp only [handleEvent, onAuthFailure] at hev
    split at hev
    · cases hev
    · cases hev
      refine ⟨⟨_, st.detached, rfl⟩, ?_⟩
      intro e1 he1
      dsimp only at he1
      rcases mem_modify he1 with h1 | ⟨s0, h1, h2⟩
      · exact ⟨e1, h1, rfl, rfl⟩
      · exact ⟨_, h1, by rw [h2]; rfl, by rw [h2]; rfl⟩
  | disconnected =>
    simp only [handleEvent, onDisconnected] at hev
    cases hev
    refine ⟨⟨_, _, rfl⟩, ?_⟩
    intro e1 he1
    exact ⟨e1, mem_remove he1, rfl, rfl⟩

theorem someScheduled_of_forall {reg1 reg0 : Registry}
    (h : ∀ e1 ∈ reg1, truthy e1.2.sheetToSchedule = true →
      ∃ e0 ∈ reg0, truthy e0.2.sheetToSchedule = true)
    (h1 : someScheduled reg1 = true) : someScheduled reg0 = true := by
  obtain ⟨e1, he1, ht⟩ := (someScheduled_iff reg1).mp h1
  exact (someScheduled_iff reg0).mpr (h e1 he1 ht)

theorem hasReadableSheet_truthy (s : Session) (h : hasReadableSheet s = true) :
    truthy s.sheetToSchedule = true := by
  unfold hasReadableSheet at h
  simp only [Bool.and_eq_true] at h
  exact h.1

theorem step_schedInv (st : State) (a : Action) (h : SchedInv st) : SchedInv (step st a) := by
  refine step_preserves SchedInv ?_ ?_ ?_ ?_ ?_ ?_ ?_ st a h
  · intro st sessionId h ⟨e1, he1, hr⟩
    rcases mem_assign he1 with h2 | h2
    · exact h ⟨e1, h2, hr⟩
    · rw [h2] at hr; simp [hasReadableSheet, truthy] at hr
  · intro st sessionId e st1 h hev ⟨e1, he1, hr⟩
    obtain ⟨⟨S, D, hshape⟩, hsheets⟩ := handleEvent_ok hev
    obtain ⟨e0, he0, heq, _⟩ := hsheets e1 he1
    have h0 : st.scheduledCron ≠ none :=
      h ⟨e0, he0, by simpa [hasReadableSheet, heq] using hr⟩
    rw [hshape]; exact h0
  · intro st req h
    rcases sendNowBegin_shape st req with
      h1 | ⟨c, p, h1⟩ | ⟨sid, _, htext, _, h1⟩ | ⟨sid, c, p, _, _, h1⟩
    · rw [h1]; exact h
    · rw [h1]; exact h
    · rw [h1]
      intro ⟨e1, he1, hr⟩
      dsimp only at he1
      rcases mem_modify he1 with h2 | ⟨s0, _, h3⟩
      · exact h ⟨e1, h2, hr⟩
      · rw [h3] at hr
        simp [hasReadableSheet, setSchedule, htext] at hr
    · rw [h1]
      intro _
      exact startScheduledCron_isSome _
  · intro st r h; exact h
  · intro st p h; exact h
  · intro st c h; exact h
  · intro st sessionId client outcome h
    rcases afterScheduledDispatch_shape st sessionId client outcome with
      h1 | ⟨_, h1⟩ | ⟨hs, h1⟩
    · rw [h1]; exact h
    · rw [h1]
      intro ⟨e1, he1, hr⟩
      dsimp only at he1
      rcases mem_modifyObject he1 with h2 | ⟨s0, _, h3⟩
      · exact h ⟨e1, h2, hr⟩
      · rw [h3] at hr; simp [hasReadableSheet, clearSchedule, truthy] at hr
    · rw [h1]
      intro ⟨e1, he1, hr⟩
      rw [stopScheduledCron_sessions] at he1
      have hsome : someScheduled
          (modifyObject st.sessions sessionId client clearSchedule) = true :=
        (someScheduled_iff _).mpr ⟨e1, he1, hasReadableSheet_truthy _ hr⟩
      rw [hs] at hsome
      cases hsome

theorem run_schedInv (actions : List Action) : SchedInv (run init actions) := by
  refine run_induction SchedInv step_schedInv actions init ?_
  intro ⟨e, he, _⟩
  cases he

/-! ## One task at most -/

theorem startScheduledCron_timerInv {st : State} (h : TimerInv st) :
    TimerInv (startScheduledCron st) := by
  unfold TimerInv at *
  unfold startScheduledCron
  split
  · rename_i hc
    rw [hc] at h
    simp [h]
  · exact h

theorem stopScheduledCron_timerInv {st : State} (h : TimerInv st) :
    TimerInv (stopScheduledCron st) := by
  unfold TimerInv at *
  unfold stopScheduledCron
  split
  · rename_i task hc
    rw [hc] at h
    simp [h]
  · exact h

theorem step_timerInv (st : State) (a : Action) (h : TimerInv st) : TimerInv (step st a) := by
  refine step_preserves TimerInv ?_ ?_ ?_ ?_ ?_ ?_ ?_ st a h
  · intro st sessionId h; exact h
  · intro st sessionId e st1 h hev
    obtain ⟨⟨S, D, hshape⟩, _⟩ := handleEvent_ok hev
    rw [hshape]; exact h
  · intro st req h
    rcases sendNowBegin_shape st req with
      h1 | ⟨c, p, h1⟩ | ⟨sid, _, _, _, h1⟩ | ⟨sid, c, p, _, _, h1⟩
    · rw [h1]; exact h
    · rw [h1]; exact h
    · rw [h1]; exact h
    · rw [h1]
      have h2 : TimerInv
          { st with
            sessions := modify st.sessions sid
              (setSchedule req.sheetName req.spreadsheetId) } := h
      exact startScheduledCron_timerInv h2
  · intro st r h; exact h
  · intro st p h; exact h
  · intro st c h; exact h
  · intro st sessionId client outcome h
    rcases afterScheduledDispatch_shape st sessionId client outcome with
      h1 | ⟨_, h1⟩ | ⟨_, h1⟩
    · rw [h1]; exact h
    · rw [h1]; exact h
    · rw [h1]
      have h2 : TimerInv
          { st with
            sessions := modifyObject st.sessions sessionId client clearSchedule
            detached := modifyObject st.detached sessionId client clearSchedule } := h
      exact stopScheduledCron_timerInv h2

/-! ## Reading the registry after a write -/

theorem getSession_cons (k : String) (v : Session) (tl : Registry) (sessionId : String) :
    getSession ((k, v) :: tl) sessionId =
      if k = sessionId then some v else getSession tl sessionId := rfl

theorem modify_cons (k : String) (v : Session) (tl : Registry) (sessionId : String)
    (f : Session → Session) :
    modify ((k, v) :: tl) sessionId f =
      (if k = sessionId then (k, f v) else (k, v)) :: modify tl sessionId f := rfl

theorem modifyObject_cons (k : String) (v : Session) (tl : Registry) (sessionId : String)
    (client : Nat) (f : Session → Session) :
    modifyObject ((k, v) :: tl) sessionId client f =
      (if k = sessionId ∧ v.client = client then (k, f v) else (k, v)) ::
        modifyObject tl sessionId client f := rfl

theorem getSession_modify_self (reg : Registry) (sessionId : String) (f : Session → Session) :
    getSession (modify reg sessionId f) sessionId = (getSession reg sessionId).map f := by
  induction reg with
  | nil => rfl
  | cons hd tl ih =>
    obtain ⟨k, v⟩ := hd
    rw [modify_cons]
    by_cases hk : k = sessionId
    · rw [if_pos hk, getSession_cons, getSession_cons, if_pos hk, if_pos hk]; rfl
    · rw [if_neg hk, getSession_cons, getSession_cons, if_neg hk, if_neg hk]; exact ih

theorem getSession_modify_other (reg : Registry) (sessionId k : String) (f : Session → Session)
    (hk : k ≠ sessionId) : getSession (modify reg sessionId f) k = getSession reg k := by
  induction reg with
  | nil => rfl
  | cons hd tl ih =>
    obtain ⟨k0, v⟩ := hd
    rw [modify_cons]
    by_cases h0 : k0 = sessionId
    · have h1 : ¬ k0 = k := fun h => hk (h ▸ h0)
      rw [if_pos h0, getSession_cons, getSession_cons, if_neg h1, if_neg h1]; exact ih
    · rw [if_neg h0, getSession_cons, getSession_cons, ih]

theorem getSession_modifyObject_other (reg : Registry) (sessionId k : String) (client : Nat)
    (f : Session → Session) (hk : k ≠ sessionId) :
    getSession (modifyObject reg sessionId client f) k = getSession reg k := by
  induction reg with
  | nil => rfl
  | cons hd tl ih =>
    obtain ⟨k0, v⟩ := hd
    rw [modifyObject_cons]
    by_cases h0 : k0 = sessionId ∧ v.client = client
    · have h1 : ¬ k0 = k := fun h => hk (h ▸ h0.1)
      rw [if_pos h0, getSession_cons, getSession_cons, if_neg h1, if_neg h1]; exact ih
    · rw [if_neg h0, getSession_cons, getSession_cons, ih]

theorem getSession_modifyObject_self (reg : Registry) (sessionId : String) (s : Session)
    (f : Session → Session) (h : getSession reg sessionId = some s) :
    getSession (modifyObject reg sessionId s.client f) sessionId = some (f s) := by
  induction reg with
  | nil => cases h
  | cons hd tl ih =>
    obtain ⟨k0, v⟩ := hd
    rw [modifyObject_cons]
    rw [getSession_cons] at h
    by_cases h0 : k0 = sessionId
    · rw [if_pos h0] at h
      cases h
      rw [if_pos ⟨h0, rfl⟩, getSession_cons, if_pos h0]
    · rw [if_neg h0] at h
      rw [if_neg (fun hc => h0 hc.1), getSession_cons, if_neg h0]
      exact ih h

theorem keys_modifyObject (reg : Registry) (sessionId : String) (client : Nat)
    (f : Session → Session) :
    (modifyObject reg sessionId client f).map Prod.fst = reg.map Prod.fst := by
  induction reg with
  | nil => rfl
  | cons hd tl ih =>
    have ih1 : List.map Prod.fst (List.map
        (fun e => if e.1 = sessionId ∧ e.2.client = client then (e.1, f e.2) else e) tl) =
        List.map Prod.fst tl := ih
    by_cases h0 : hd.1 = sessionId ∧ hd.2.client = client
    · simp only [modifyObject, List.map_cons, h0, and_self, if_true, ih1]
    · simp only [modifyObject, List.map_cons, h0, if_false, ih1]

theorem getSession_none_of_not_mem (reg : Registry) (k : String)
    (h : k ∉ reg.map Prod.fst) : getSession reg k = none := by
  induction reg with
  | nil => rfl
  | cons hd tl ih =>
    obtain ⟨k0, v⟩ := hd
    simp only [List.map_cons, List.mem_cons, not_or] at h
    have h0 : ¬ k0 = k := fun h1 => h.1 h1.symm
    simp only [getSession, h0, if_false]
    exact ih h.2

theorem getSession_of_mem (reg : Registry) (hn : KeysNodup reg) (e : String × Session)
    (he : e ∈ reg) : getSession reg e.1 = some e.2 := by
  induction reg with
  | nil => cases he
  | cons hd tl ih =>
    obtain ⟨k0, v⟩ := hd
    unfold KeysNodup at hn
    simp only [List.map_cons, List.nodup_cons] at hn
    rcases List.mem_cons.mp he with h1 | h1
    · rw [h1]; simp [getSession]
    · have h0 : ¬ k0 = e.1 := by
        intro h2
        exact hn.1 (h2 ▸ List.mem_map_of_mem Prod.fst h1)
      simp only [getSession, h0, if_false]
      exact ih hn.2 h1

/-! ## Assignment to a key -/

theorem assign_cons (k : String) (w : Session) (tl : Registry) (sessionId : String)
    (v : Session) :
    assign ((k, w) :: tl) sessionId v =
      if k = sessionId then (k, v) :: tl else (k, w) :: assign tl sessionId v := rfl

theorem getSession_assign_self (reg : Registry) (sessionId : String) (v : Session) :
    getSession (assign reg sessionId v) sessionId = some v := by
  induction reg with
  | nil => simp [assign, getSession]
  | cons hd tl ih =>
    obtain ⟨k, w⟩ := hd
    rw [assign_cons]
    by_cases hk : k = sessionId
    · rw [if_pos hk, getSession_cons, if_pos hk]
    · rw [if_neg hk, getSession_cons, if_neg hk]; exact ih

theorem getSession_assign_other (reg : Registry) (sessionId k : String) (v : Session)
    (hk : k ≠ sessionId) : getSession (assign reg sessionId v) k = getSession reg k := by
  induction reg with
  | nil =>
    have h1 : ¬ sessionId = k := fun h => hk h.symm
    simp [assign, getSession, h1]
  | cons hd tl ih =>
    obtain ⟨k0, w⟩ := hd
    rw [assign_cons]
    by_cases h0 : k0 = sessionId
    · have h1 : ¬ k0 = k := fun h => hk (h ▸ h0)
      rw [if_pos h0, getSession_cons, getSession_cons, if_neg h1, if_neg h1]
    · rw [if_neg h0, getSession_cons, getSession_cons, ih]

theorem keys_assign_of_some (reg : Registry) (sessionId : String) (v old : Session)
    (h : getSession reg sessionId = some old) :
    (assign reg sessionId v).map Prod.fst = reg.map Prod.fst := by
  induction reg with
  | nil => cases h
  | cons hd tl ih =>
    obtain ⟨k0, w⟩ := hd
    rw [assign_cons]
    rw [getSession_cons] at h
    by_cases h0 : k0 = sessionId
    · rw [if_pos h0]; rfl
    · rw [if_neg h0] at h
      rw [if_neg h0, List.map_cons, List.map_cons, ih h]

theorem mem_keys_of_getSession (reg : Registry) (sessionId : String) (s : Session)
    (h : getSession reg sessionId = some s) : sessionId ∈ reg.map Prod.fst := by
  by_contra hc
  rw [getSession_none_of_not_mem reg sessionId hc] at h
  cases h

theorem mem_of_getSession (reg : Registry) (k : String) (session : Session)
    (h : getSession reg k = some session) : (k, session) ∈ reg := by
  induction reg with
  | nil => cases h
  | cons hd tl ih =>
    obtain ⟨k0, v⟩ := hd
    rw [getSession_cons] at h
    by_cases h0 : k0 = k
    · rw [if_pos h0] at h
      cases h
      rw [h0]
      exact List.mem_cons_self _ _
    · rw [if_neg h0] at h
      exact List.mem_cons_of_mem _ (ih h)

theorem keys_modify (reg : Registry) (sessionId : String) (f : Session → Session) :
    (modify reg sessionId f).map Prod.fst = reg.map Prod.fst := by
  induction reg with
  | nil => rfl
  | cons hd tl ih =>
    obtain ⟨k, v⟩ := hd
    rw [modify_cons, List.map_cons, List.map_cons, ih]
    by_cases hk : k = sessionId
    · rw [if_pos hk]
    · rw [if_neg hk]

theorem keys_assign (reg : Registry) (sessionId : String) (v : Session) :
    (assign reg sessionId v).map Prod.fst = reg.map Prod.fst ∨
    (sessionId ∉ reg.map Prod.fst ∧
      (assign reg sessionId v).map Prod.fst = reg.map Prod.fst ++ [sessionId]) := by
  induction reg with
  | nil => right; exact ⟨by simp, rfl⟩
  | cons hd tl ih =>
    obtain ⟨k, w⟩ := hd
    rw [assign_cons]
    by_cases hk : k = sessionId
    · left; rw [if_pos hk]; rfl
    · rw [if_neg hk]
      rcases ih with h1 | ⟨h1, h2⟩
      · left; rw [List.map_cons, List.map_cons, h1]
      · right
        refine ⟨?_, ?_⟩
        · simp only [List.map_cons, List.mem_cons, not_or]
          exact ⟨fun h => hk h.symm, h1⟩
        · rw [List.map_cons, h2]; rfl

theorem keysNodup_assign (reg : Registry) (sessionId : String) (v : Session)
    (h : KeysNodup reg) : KeysNodup (assign reg sessionId v) := by
  unfold KeysNodup at *
  rcases keys_assign reg sessionId v with h1 | ⟨h1, h2⟩
  · rw [h1]; exact h
  · rw [h2]
    exact List.Nodup.append h (List.nodup_singleton _) (by simpa using h1)

theorem keysNodup_remove (reg : Registry) (sessionId : String) (h : KeysNodup reg) :
    KeysNodup (remove reg sessionId) := by
  unfold KeysNodup remove at *
  exact List.Nodup.sublist (List.Sublist.map _ (List.filter_sublist _)) h

/-! ## Distinct keys and fresh client handles -/

theorem step_wellFormed (st : State) (a : Action) (h : WellFormed st) :
    WellFormed (step st a) := by
  refine step_preserves WellFormed ?_ ?_ ?_ ?_ ?_ ?_ ?_ st a h
  · intro st sessionId h
    refine ⟨keysNodup_assign _ _ _ h.1, ?_⟩
    intro e he
    show e.2.client < st.nextClient + 1
    rcases mem_assign he with h1 | h1
    · exact Nat.lt_succ_of_lt (h.2 e h1)
    · rw [h1]; exact Nat.lt_succ_self _
  · intro st sessionId e st1 h hev
    obtain ⟨⟨S, D, hshape⟩, hsame⟩ := handleEvent_ok hev
    refine ⟨?_, ?_⟩
    · cases e with
      | qr payload =>
        simp only [handleEvent, onQr] at hev
        split at hev
        · cases hev
        · cases hev
          show KeysNodup (modify st.sessions sessionId _)
          unfold KeysNodup; rw [keys_modify]; exact h.1
      | ready =>
        simp only [handleEvent, onReady] at hev
        split at hev
        · cases hev
        · cases hev
          show KeysNodup (modify st.sessions sessionId _)
          unfold KeysNodup; rw [keys_modify]; exact h.1
      | authFailure =>
        simp only [handleEvent, onAuthFailure] at hev
        split at hev
        · cases hev
        · cases hev
          show KeysNodup (modify st.sessions sessionId _)
          unfold KeysNodup; rw [keys_modify]; exact h.1
      | disconnected =>
        simp only [handleEvent, onDisconnected] at hev
        cases hev
        exact keysNodup_remove _ _ h.1
    · intro e1 he1
      obtain ⟨e0, he0, _, hc⟩ := hsame e1 he1
      rw [hc, hshape]
      exact h.2 e0 he0
  · intro st req h
    have hmod : ∀ sid, WellFormed
        { st with
          sessions := modify st.sessions sid (setSchedule req.sheetName req.spreadsheetId) } := by
      intro sid
      refine ⟨?_, ?_⟩
      · show KeysNodup (modify st.sessions sid _)
        unfold KeysNodup; rw [keys_modify]; exact h.1
      · intro e he
        dsimp only at he
        show e.2.client < st.nextClient
        rcases mem_modify he with h1 | ⟨s0, h1, h2⟩
        · exact h.2 e h1
        · rw [h2]; exact h.2 _ h1
    rcases sendNowBegin_shape st req with
      h1 | ⟨c, p, h1⟩ | ⟨sid, _, _, _, h1⟩ | ⟨sid, c, p, _, _, h1⟩
    · rw [h1]; exact h
    · rw [h1]; exact h
    · rw [h1]; exact hmod sid
    · rw [h1]
      have h2 := hmod sid
      refine ⟨?_, ?_⟩
      · show KeysNodup (startScheduledCron _).sessions
        rw [startScheduledCron_sessions]; exact h2.1
      · intro e he
        show e.2.client < (startScheduledCron _).nextClient
        rw [startScheduledCron_nextClient]
        have he2 : e ∈ (startScheduledCron
            { st with
              sessions := modify st.sessions sid
                (setSchedule req.sheetName req.spreadsheetId) }).sessions := he
        rw [startScheduledCron_sessions] at he2
        exact h2.2 e he2
  · intro st r h; exact h
  · intro st p h; exact h
  · intro st c h; exact h
  · intro st sessionId client outcome h
    have hmod : WellFormed
        { st with
          sessions := modifyObject st.sessions sessionId client clearSchedule
          detached := modifyObject st.detached sessionId client clearSchedule } := by
      refine ⟨?_, ?_⟩
      · show KeysNodup (modifyObject st.sessions sessionId client clearSchedule)
        unfold KeysNodup; rw [keys_modifyObject]; exact h.1
      · intro e he
        dsimp only at he
        show e.2.client < st.nextClient
        rcases mem_modifyObject he with h1 | ⟨s0, h1, h2⟩
        · exact h.2 e h1
        · rw [h2]; exact h.2 _ h1
    rcases afterScheduledDispatch_shape st sessionId client outcome with
      h1 | ⟨_, h1⟩ | ⟨_, h1⟩
    · rw [h1]; exact h
    · rw [h1]; exact hmod
    · rw [h1]
      refine ⟨?_, ?_⟩
      · show KeysNodup (stopScheduledCron _).sessions
        rw [stopScheduledCron_sessions]; exact hmod.1
      · intro e he
        show e.2.client < (stopScheduledCron _).nextClient
        rw [stopScheduledCron_nextClient]
        rw [stopScheduledCron_sessions] at he
        exact hmod.2 e he

/-- Every state the process can reach has distinct keys, and client handles
allocated before `nextClient`. -/
theorem run_wellFormed (actions : List Action) : WellFormed (run init actions) := by
  refine run_induction WellFormed step_wellFormed actions init ⟨?_, ?_⟩
  · exact List.nodup_nil
  · intro e he; cases he

theorem run_timerInv (actions : List Action) : TimerInv (run init actions) :=
  run_induction TimerInv step_timerInv actions init rfl

theorem runOps_timerInv (ops : List CronOp) :
    ∀ st : State, TimerInv st → TimerInv (runOps st ops) := by
  induction ops with
  | nil => intro st h; exact h
  | cons op rest ih =>
    intro st h
    refine ih (applyOp st op) ?_
    cases op with
    | start => exact startScheduledCron_timerInv h
    | stop => exact stopScheduledCron_timerInv h
    | act a => exact step_timerInv st a h

theorem settledZero_iff (outcome : Outcome) :
    settledZero outcome = true ↔ outcome = .resolved (.object (.number 0)) := by
  cases outcome with
  | rejected reason => simp [settledZero]
  | resolved result =>
    cases result with
    | nothing => simp [settledZero, reportsZero]
    | object v =>
      cases v with
      | undefined => simp [settledZero, reportsZero]
      | string str => simp [settledZero, reportsZero]
      | number n => simp [settledZero, reportsZero]

theorem eligible_sheet (s : Session) (h : eligible s = true) :
    s.status = .READY ∧ truthy s.sheetToSchedule = true ∧
      truthy s.spreadsheetIdToSchedule = true := by
  unfold eligible at h
  simp only [Bool.and_eq_true, beq_iff_eq] at h
  exact ⟨h.1.1, h.1.2, h.2⟩

/-! ## One uninterrupted run of the cron callback -/

theorem findObject_of_getSession (reg : Registry) (sessionId : String) (s : Session)
    (h : getSession reg sessionId = some s) : findObject reg sessionId s.client = some s := by
  induction reg with
  | nil => cases h
  | cons hd tl ih =>
    obtain ⟨k0, v⟩ := hd
    rw [getSession_cons] at h
    unfold findObject
    by_cases h0 : k0 = sessionId
    · rw [if_pos h0] at h
      cases h
      rw [if_pos ⟨h0, rfl⟩]
    · rw [if_neg h0] at h
      rw [if_neg (fun hc => h0 hc.1)]
      exact ih h

theorem capturedSheet_of_getSession (st : State) (sessionId : String) (s : Session)
    (h : getSession st.sessions sessionId = some s) :
    capturedSheet st sessionId s.client = s.sheetToSchedule := by
  unfold capturedSheet capturedObject
  rw [findObject_of_getSession _ _ _ h]

@[simp] theorem afterScheduledDispatch_calls (st : State) (sessionId : String) (client : Nat)
    (outcome : Outcome) :
    (afterScheduledDispatch st sessionId client outcome).calls = st.calls := by
  rcases afterScheduledDispatch_shape st sessionId client outcome with h1 | ⟨_, h1⟩ | ⟨_, h1⟩
  · rw [h1]
  · rw [h1]
  · rw [h1, stopScheduledCron_calls]

@[simp] theorem afterScheduledDispatch_pending (st : State) (sessionId : String) (client : Nat)
    (outcome : Outcome) :
    (afterScheduledDispatch st sessionId client outcome).pending = st.pending := by
  rcases afterScheduledDispatch_shape st sessionId client outcome with h1 | ⟨_, h1⟩ | ⟨_, h1⟩
  · rw [h1]
  · rw [h1]
  · rw [h1, stopScheduledCron_pending]

theorem afterScheduledDispatch_other (st : State) (sessionId k : String) (client : Nat)
    (outcome : Outcome) (hk : k ≠ sessionId) :
    getSession (afterScheduledDispatch st sessionId client outcome).sessions k =
      getSession st.sessions k := by
  rcases afterScheduledDispatch_shape st sessionId client outcome with h1 | ⟨_, h1⟩ | ⟨_, h1⟩
  · rw [h1]
  · rw [h1]; exact getSession_modifyObject_other _ _ _ _ _ hk
  · rw [h1, stopScheduledCron_sessions]; exact getSession_modifyObject_other _ _ _ _ _ hk

theorem afterScheduledDispatch_self (st : State) (sessionId : String) (s : Session)
    (outcome : Outcome) (h : getSession st.sessions sessionId = some s)
    (ht : toText s.sheetToSchedule ≠ none) :
    getSession (afterScheduledDispatch st sessionId s.client outcome).sessions sessionId =
      some (if settledZero outcome then clearSchedule s else s) := by
  cases outcome with
  | rejected reason => simpa [afterScheduledDispatch, settledZero] using h
  | resolved result =>
    by_cases hz : reportsZero result = true
    · have hself := getSession_modifyObject_self st.sessions sessionId s clearSchedule h
      have hcap := capturedSheet_of_getSession st sessionId s h
      cases htext : toText s.sheetToSchedule with
      | none => exact absurd htext ht
      | some text =>
        by_cases hsome :
            someScheduled (modifyObject st.sessions sessionId s.client clearSchedule) = true
        · simpa [afterScheduledDispatch, settledZero, hz, hcap, htext, hsome] using hself
        · simpa [afterScheduledDispatch, settledZero, hz, hcap, htext, hsome] using hself
    · simpa [afterScheduledDispatch, settledZero, hz] using h

theorem catchThrows_iff (outcome : Outcome) :
    catchThrows outcome = true ↔ outcome = .rejected .nullish := by
  cases outcome with
  | resolved result => simp [catchThrows]
  | rejected reason =>
    cases reason with
    | nullish => simp [catchThrows]
    | error message => simp [catchThrows]

/-- What one uninterrupted run over `keys` does: it makes a list of calls, each
for a key of `keys` whose session was eligible when the run began, and a
session of the registry is changed only if a call was made for it and that
call resolved with the number `0`; its two schedule properties are then
deleted. -/
theorem cronRun_effect (outcome : String → Outcome) (keys : List String) :
    ∀ (st : State), keys.Nodup → ∃ made : List (String × Call),
      (cronRun outcome st keys).calls = st.calls ++ made ∧
      (∀ p ∈ made, p.1 ∈ keys) ∧
      (∀ p ∈ made, ∃ s, getSession st.sessions p.1 = some s ∧ eligible s = true ∧
        p.2 = cronCall s) ∧
      ∀ sessionId : String,
        getSession (cronRun outcome st keys).sessions sessionId =
          (getSession st.sessions sessionId).map (fun s =>
            if sessionId ∈ made.map Prod.fst ∧ settledZero (outcome sessionId) = true
            then clearSchedule s else s) := by
  induction keys with
  | nil =>
    intro st _
    refine ⟨[], by simp [cronRun], ?_, ?_, ?_⟩
    · intro p hp; cases hp
    · intro p hp; cases hp
    · intro sessionId
      simp [cronRun]
  | cons k rest ih =>
    intro st hn
    rw [List.nodup_cons] at hn
    obtain ⟨hk, hrest⟩ := hn
    have hskip : cronRun outcome st (k :: rest) = cronRun outcome st rest →
        ∃ made : List (String × Call),
          (cronRun outcome st (k :: rest)).calls = st.calls ++ made ∧
          (∀ p ∈ made, p.1 ∈ k :: rest) ∧
          (∀ p ∈ made, ∃ s, getSession st.sessions p.1 = some s ∧ eligible s = true ∧
            p.2 = cronCall s) ∧
          ∀ sessionId : String,
            getSession (cronRun outcome st (k :: rest)).sessions sessionId =
              (getSession st.sessions sessionId).map (fun s =>
                if sessionId ∈ made.map Prod.fst ∧ settledZero (outcome sessionId) = true
                then clearSchedule s else s) := by
      intro heq
      obtain ⟨made, hc, hkeys, hel, hs⟩ := ih st hrest
      rw [heq]
      exact ⟨made, hc, fun p hp => List.mem_cons_of_mem _ (hkeys p hp), hel, hs⟩
    cases hget : getSession st.sessions k with
    | none =>
      apply hskip
      simp only [cronRun, hget]
    | some session =>
      by_cases hel : eligible session = true
      · cases ht : toText session.sheetToSchedule with
        | none =>
          have heq : cronRun outcome st (k :: rest) = st := by
            simp only [cronRun, hget, hel, if_true, ht]
          rw [heq]
          refine ⟨[], by simp, ?_, ?_, ?_⟩
          · intro p hp; cases hp
          · intro p hp; cases hp
          · intro sessionId; simp
        | some text =>
          by_cases hthrow : catchThrows (outcome k) = true
          · have hrej := (catchThrows_iff _).mp hthrow
            have heq : cronRun outcome st (k :: rest) = record st k (cronCall session) := by
              simp only [cronRun, hget, hel, if_true, ht, hthrow]
              rw [hrej]; rfl
            rw [heq]
            refine ⟨[(k, cronCall session)], rfl, ?_, ?_, ?_⟩
            · intro p hp
              rw [List.mem_singleton] at hp
              rw [hp]; exact List.mem_cons_self _ _
            · intro p hp
              rw [List.mem_singleton] at hp
              rw [hp]; exact ⟨session, hget, hel, rfl⟩
            · intro sessionId
              have hcond : ¬ (sessionId ∈ List.map Prod.fst [(k, cronCall session)] ∧
                  settledZero (outcome sessionId) = true) := by
                intro ⟨hm, hz⟩
                simp only [List.map_cons, List.map_nil, List.mem_singleton] at hm
                rw [hm, hrej] at hz
                cases hz
              simp only [hcond, if_false]
              show getSession st.sessions sessionId = _
              simp
          · have heq : cronRun outcome st (k :: rest) =
                cronRun outcome
                  (afterScheduledDispatch (record st k (cronCall session)) k session.client
                    (outcome k)) rest := by
              simp only [cronRun, hget, hel, if_true, ht, hthrow]
              rfl
            rw [heq]
            obtain ⟨made, hc, hkeys, hmade, hs⟩ := ih
              (afterScheduledDispatch (record st k (cronCall session)) k session.client
                (outcome k)) hrest
            have hkmade : k ∉ made.map Prod.fst := by
              intro hmem
              obtain ⟨p, hp, hpk⟩ := List.mem_map.mp hmem
              exact hk (hpk ▸ hkeys p hp)
            refine ⟨(k, cronCall session) :: made, ?_, ?_, ?_, ?_⟩
            · rw [hc, afterScheduledDispatch_calls]
              simp [record]
            · intro p hp
              rcases List.mem_cons.mp hp with h1 | h1
              · rw [h1]; exact List.mem_cons_self _ _
              · exact List.mem_cons_of_mem _ (hkeys p h1)
            · intro p hp
              rcases List.mem_cons.mp hp with h1 | h1
              · rw [h1]; exact ⟨session, hget, hel, rfl⟩
              · obtain ⟨s, hs1, hs2, hs3⟩ := hmade p h1
                have hne : p.1 ≠ k := fun h => hk (h ▸ hkeys p h1)
                rw [afterScheduledDispatch_other _ _ _ _ _ hne] at hs1
                exact ⟨s, hs1, hs2, hs3⟩
            · intro sessionId
              rw [hs sessionId]
              by_cases hid : sessionId = k
              · subst hid
                have hself := afterScheduledDispatch_self
                  (record st sessionId (cronCall session)) sessionId session
                  (outcome sessionId) hget (by rw [ht]; simp)
                rw [hself, hget]
                simp [hkmade]
              · rw [afterScheduledDispatch_other _ _ _ _ _ hid]
                show Option.map _ (getSession st.sessions sessionId) = _
                simp only [List.map_cons, List.mem_cons, hid, false_or]
      · apply hskip
        simp only [cronRun, hget, hel]
        rfl

/-- The dispatch calls of a run in which nothing throws: no eligible session
has a sheet whose conversion to a string throws, and no call rejects with
`null` or `undefined`. -/
theorem cronRun_calls (outcome : String → Outcome) (keys : List String) :
    ∀ (st : State), keys.Nodup →
      (∀ k ∈ keys, ∀ s, getSession st.sessions k = some s → eligible s = true →
        toText s.sheetToSchedule ≠ none ∧ catchThrows (outcome k) = false) →
      (cronRun outcome st keys).calls =
        st.calls ++ keys.filterMap (fun k =>
          (getSession st.sessions k).bind
            (fun s => if eligible s then some (k, cronCall s) else none)) := by
  induction keys with
  | nil => intro st _ _; simp [cronRun]
  | cons k rest ih =>
    intro st hn hsafe
    rw [List.nodup_cons] at hn
    obtain ⟨hk, hrest⟩ := hn
    have hsafeRest : ∀ k1 ∈ rest, ∀ s, getSession st.sessions k1 = some s →
        eligible s = true →
        toText s.sheetToSchedule ≠ none ∧ catchThrows (outcome k1) = false :=
      fun k1 hk1 => hsafe k1 (List.mem_cons_of_mem _ hk1)
    cases hget : getSession st.sessions k with
    | none =>
      simp only [cronRun, hget]
      rw [ih st hrest hsafeRest]
      simp [hget]
    | some session =>
      by_cases hel : eligible session = true
      · obtain ⟨htext, hcatch⟩ := hsafe k (List.mem_cons_self _ _) session hget hel
        cases ht : toText session.sheetToSchedule with
        | none => exact absurd ht htext
        | some text =>
          have heq : cronRun outcome st (k :: rest) =
              cronRun outcome
                (afterScheduledDispatch (record st k (cronCall session)) k session.client
                  (outcome k)) rest := by
            simp only [cronRun, hget, hel, if_true, ht, hcatch]
            rfl
          rw [heq]
          have hsafe2 : ∀ k1 ∈ rest, ∀ s,
              getSession (afterScheduledDispatch (record st k (cronCall session)) k
                session.client (outcome k)).sessions k1 = some s →
              eligible s = true →
              toText s.sheetToSchedule ≠ none ∧ catchThrows (outcome k1) = false := by
            intro k1 hk1 s hs
            have hne : k1 ≠ k := fun h => hk (h ▸ hk1)
            rw [afterScheduledDispatch_other _ _ _ _ _ hne] at hs
            exact hsafeRest k1 hk1 s hs
          rw [ih _ hrest hsafe2]
          have hcongr : List.filterMap (fun k1 =>
                (getSession (afterScheduledDispatch (record st k (cronCall session)) k
                  session.client (outcome k)).sessions k1).bind
                  (fun s => if eligible s then some (k1, cronCall s) else none)) rest =
              List.filterMap (fun k1 =>
                (getSession st.sessions k1).bind
                  (fun s => if eligible s then some (k1, cronCall s) else none)) rest := by
            apply List.filterMap_congr
            intro k1 hk1
            have hne : k1 ≠ k := fun h => hk (h ▸ hk1)
            rw [afterScheduledDispatch_other _ _ _ _ _ hne]
            rfl
          rw [hcongr, afterScheduledDispatch_calls]
          simp [record, hget, hel]
      · have heq : cronRun outcome st (k :: rest) = cronRun outcome st rest := by
          simp only [cronRun, hget, hel]
          rfl
        rw [heq, ih st hrest hsafeRest]
        simp [hget, hel]

theorem filterMap_ite_eq_map_filter {α β : Type} (p : α → Bool) (f : α → β) (l : List α) :
    l.filterMap (fun a => if p a then some (f a) else none) = (l.filter p).map f := by
  induction l with
  | nil => rfl
  | cons a tl ih =>
    by_cases h : p a = true
    · simp [List.filterMap_cons, List.filter_cons, h, ih]
    · simp [List.filterMap_cons, List.filter_cons, h, ih]

/-- The calls of one run in which nothing throws, read off the registry as it
was when the run began. -/
theorem cronCallback_calls (outcome : String → Outcome) (st : State)
    (hn : KeysNodup st.sessions)
    (hsafe : ∀ e ∈ st.sessions, eligible e.2 = true →
      toText e.2.sheetToSchedule ≠ none ∧ catchThrows (outcome e.1) = false) :
    (cronCallback outcome st).calls =
      st.calls ++
        (st.sessions.filter (fun e => eligible e.2)).map (fun e => (e.1, cronCall e.2)) := by
  unfold cronCallback
  have hsafe2 : ∀ k ∈ st.sessions.map Prod.fst, ∀ s, getSession st.sessions k = some s →
      eligible s = true →
      toText s.sheetToSchedule ≠ none ∧ catchThrows (outcome k) = false := by
    intro k _ s hs hel
    exact hsafe (k, s) (mem_of_getSession _ _ _ hs) hel
  rw [cronRun_calls outcome _ st hn hsafe2, List.filterMap_map]
  congr 1
  rw [← filterMap_ite_eq_map_filter]
  apply List.filterMap_congr
  intro e he
  simp only [Function.comp]
  rw [getSession_of_mem st.sessions hn e he]
  rfl

/-! ## The two readings of the cron callback agree -/

theorem driveCron_idle (outcome : String → Outcome) (fuel : Nat) (st : State)
    (hp : st.pending = []) : driveCron outcome fuel st = st := by
  cases fuel with
  | zero => rfl
  | succ n => simp [driveCron, hp]

theorem driveCron_invoke (outcome : String → Outcome) (n : Nat) (st : State)
    (hp : st.pending = []) (k : String) (call : Call) (client : Nat) (rest : List String) :
    driveCron outcome (n + 1) (invoke st k call (.cron k client rest)) =
      driveCron outcome n (resume (record st k call) (outcome k) call (.cron k client rest)) := by
  obtain ⟨sessions, detached, scheduledCron, activeTasks, nextTask, nextClient, pending, calls,
    responses⟩ := st
  simp only at hp
  subst hp
  simp [driveCron, invoke, record, step]

/-- With nothing else in flight, the uninterrupted run of the callback is the
suspending run in which every dispatch call settles as soon as it is made. -/
theorem cronRun_eq_driveCron (outcome : String → Outcome) (keys : List String) :
    ∀ (st : State) (fuel : Nat), st.pending = [] → keys.length ≤ fuel →
      driveCron outcome fuel (cronLoop st keys) = cronRun outcome st keys := by
  induction keys with
  | nil =>
    intro st fuel hp _
    exact driveCron_idle outcome fuel st hp
  | cons k rest ih =>
    intro st fuel hp hfuel
    cases fuel with
    | zero => simp at hfuel
    | succ n =>
      have hn : rest.length ≤ n := by simpa using hfuel
      cases hget : getSession st.sessions k with
      | none =>
        simp only [cronLoop, cronRun, hget]
        exact ih st (n + 1) hp (Nat.le_succ_of_le hn)
      | some session =>
        by_cases hel : eligible session = true
        · cases ht : toText session.sheetToSchedule with
          | none =>
            have h1 : cronLoop st (k :: rest) = st := by
              simp only [cronLoop, hget, hel, if_true, ht]
            have h2 : cronRun outcome st (k :: rest) = st := by
              simp only [cronRun, hget, hel, if_true, ht]
            rw [h1, h2]
            exact driveCron_idle outcome _ st hp
          | some text =>
            have hafter : (afterScheduledDispatch (record st k (cronCall session)) k
                session.client (outcome k)).pending = [] := by
              rw [afterScheduledDispatch_pending]; exact hp
            have h1 : cronLoop st (k :: rest) =
                invoke st k (cronCall session) (.cron k session.client rest) := by
              simp only [cronLoop, hget, hel, if_true, ht]
            rw [h1, driveCron_invoke outcome n st hp]
            by_cases hthrow : catchThrows (outcome k) = true
            · have h2 : cronRun outcome st (k :: rest) =
                  afterScheduledDispatch (record st k (cronCall session)) k session.client
                    (outcome k) := by
                simp only [cronRun, hget, hel, if_true, ht, hthrow]
              rw [h2]
              simp only [resume, hthrow, if_true]
              exact driveCron_idle outcome _ _ hafter
            · have h2 : cronRun outcome st (k :: rest) =
                  cronRun outcome
                    (afterScheduledDispatch (record st k (cronCall session)) k session.client
                      (outcome k)) rest := by
                simp only [cronRun, hget, hel, if_true, ht, hthrow]
                rfl
              rw [h2, ← ih _ n hafter hn]
              simp only [resume, hthrow]
              rfl
        · have h1 : cronLoop st (k :: rest) = cronLoop st rest := by
            simp only [cronLoop, hget, hel]; rfl
          have h2 : cronRun outcome st (k :: rest) = cronRun outcome st rest := by
            simp only [cronRun, hget, hel]; rfl
          rw [h1, h2]
          exact ih st (n + 1) hp (Nat.le_succ_of_le hn)

/-- A complete tick is a firing of the cron followed by the settlement of
each dispatch call before anything else happens. -/
theorem tick_eq_fire_then_settle (outcome : String → Outcome) (st : State)
    (hp : st.pending = []) :
    step st (.tick outcome) = driveCron outcome st.sessions.length (step st .fire) := by
  by_cases ht : st.activeTasks = []
  · cases hl : st.sessions.length with
    | zero => simp [step, ht, driveCron]
    | succ n => simp [step, ht, driveCron, hp]
  · simp only [step, ht, if_false, cronCallback]
    rw [cronRun_eq_driveCron outcome _ st _ hp (by simp)]

/-! ## Single steps read through `getSession` -/

theorem step_qr_getSession (st : State) (sessionId payload : String) (s : Session)
    (h : getSession st.sessions sessionId = some s) :
    getSession (step st (.event sessionId (.qr payload))).sessions sessionId =
      some { s with qr := some payload, status := .QR_READY } := by
  simp only [step, handleEvent, onQr, h]
  rw [getSession_modify_self, h]
  rfl

theorem step_ready_getSession (st : State) (sessionId : String) (s : Session)
    (h : getSession st.sessions sessionId = some s) :
    getSession (step st (.event sessionId .ready)).sessions sessionId =
      some { s with status := .READY } := by
  simp only [step, handleEvent, onReady, h]
  rw [getSession_modify_self, h]
  rfl

/-! ## Repeated events -/

theorem modify_modify (reg : Registry) (sessionId : String) (f : Session → Session)
    (hf : ∀ s, f (f s) = f s) :
    modify (modify reg sessionId f) sessionId f = modify reg sessionId f := by
  induction reg with
  | nil => rfl
  | cons hd tl ih =>
    obtain ⟨k, v⟩ := hd
    rw [modify_cons]
    by_cases hk : k = sessionId
    · rw [if_pos hk, modify_cons, if_pos hk, hf, ih]
    · rw [if_neg hk, modify_cons, if_neg hk, ih]

theorem remove_remove (reg : Registry) (sessionId : String) :
    remove (remove reg sessionId) sessionId = remove reg sessionId := by
  unfold remove
  rw [List.filter_filter]
  congr 1
  funext e
  simp

theorem filter_key_remove (reg : Registry) (sessionId : String) :
    (remove reg sessionId).filter (fun e => e.1 = sessionId) = [] := by
  unfold remove
  rw [List.filter_filter]
  apply List.filter_eq_nil_iff.mpr
  intro e _
  simp

/-- A listener that ran without throwing, run again on the state it left,
does not throw and leaves that state as it is. -/
theorem handleEvent_idempotent {st st1 : State} {sessionId : String} {e : Event}
    (h : handleEvent st sessionId e = .ok st1) : handleEvent st1 sessionId e = .ok st1 := by
  cases e with
  | qr payload =>
    simp only [handleEvent, onQr] at h ⊢
    cases hget : getSession st.sessions sessionId with
    | none => rw [hget] at h; cases h
    | some s =>
      rw [hget] at h
      cases h
      simp only [getSession_modify_self, hget, Option.map_some']
      rw [modify_modify st.sessions sessionId (setQr payload) (fun _ => rfl)]
  | ready =>
    simp only [handleEvent, onReady] at h ⊢
    cases hget : getSession st.sessions sessionId with
    | none => rw [hget] at h; cases h
    | some s =>
      rw [hget] at h
      cases h
      simp only [getSession_modify_self, hget, Option.map_some']
      rw [modify_modify st.sessions sessionId (setStatus .READY) (fun _ => rfl)]
  | authFailure =>
    simp only [handleEvent, onAuthFailure] at h ⊢
    cases hget : getSession st.sessions sessionId with
    | none => rw [hget] at h; cases h
    | some s =>
      rw [hget] at h
      cases h
      simp only [getSession_modify_self, hget, Option.map_some']
      rw [modify_modify st.sessions sessionId (setStatus .AUTH_FAILURE) (fun _ => rfl)]
  | disconnected =>
    simp only [handleEvent, onDisconnected] at h ⊢
    cases h
    simp only [remove_remove, filter_key_remove, List.nil_append]

/-- The listeners for `qr`, `ready` and `auth_failure` throw exactly when the
registry has no entry for their session; the one for `disconnected` never
throws. -/
theorem handleEvent_throws_iff (st : State) (sessionId : String) (e : Event) :
    handleEvent st sessionId e = .error .typeError ↔
      (getSession st.sessions sessionId = none ∧ e ≠ .disconnected) := by
  cases e with
  | qr payload =>
    simp only [handleEvent, onQr]
    cases getSession st.sessions sessionId <;> simp
  | ready =>
    simp only [handleEvent, onReady]
    cases getSession st.sessions sessionId <;> simp
  | authFailure =>
    simp only [handleEvent, onAuthFailure]
    cases getSession st.sessions sessionId <;> simp
  | disconnected =>
    simp [handleEvent, onDisconnected]

/-! ## When `/send-now` registers a sheet -/

/-- A request that is answered at once (400 or 403) leaves the state alone. -/
theorem sendNowBegin_answered (st : State) (req : Request) (response : Response)
    (h : (sendNowBegin st req).2 = .answered response) : (sendNowBegin st req).1 = st := by
  revert h
  unfold sendNowBegin
  split
  · intro _; rfl
  · split
    · intro _; rfl
    · split
      · intro _; rfl
      · split
        · intro _; rfl
        · split
          · intro _; rfl
          · split
            · split
              · intro h; cases h
              · intro h; cases h
            · intro h; cases h

/-- The lower-casing of the mode succeeds exactly for a falsy value and for a
string. -/
theorem normalizeMode_ne_none_iff (rawMode : BodyValue) :
    normalizeMode rawMode ≠ none ↔ (truthy rawMode = false ∨ ∃ m, rawMode = .string m) := by
  cases rawMode with
  | absent => simp [normalizeMode, truthy]
  | string m =>
    by_cases hm : m = ""
    · simp [normalizeMode, truthy, hm]
    · simp [normalizeMode, truthy, hm]
  | other isTruthy text =>
    cases isTruthy <;> simp [normalizeMode, truthy]

/-- The synchronous part of `/send-now` for a request that passes the 400 and
403 tests and whose mode lower-cases to `mode`. -/
theorem sendNowBegin_ready (st : State) (req : Request) (sessionId mode : String)
    (session : Session)
    (h1 : truthy req.sessionId = true) (h2 : truthy req.sheetName = true)
    (h3 : truthy req.spreadsheetId = true) (hkey : toText req.sessionId = some sessionId)
    (hget : getSession st.sessions sessionId = some session)
    (hready : session.status = .READY) (hmode : normalizeMode req.mode = some mode) :
    sendNowBegin st req =
      if mode = "scheduled" ∨ mode = "combined" then
        match toText req.sheetName with
        | none =>
          ({ st with
             sessions := modify st.sessions sessionId
               (setSchedule req.sheetName req.spreadsheetId) },
           .threw)
        | some _ =>
          (invoke
            (startScheduledCron
              { st with
                sessions := modify st.sessions sessionId
                  (setSchedule req.sheetName req.spreadsheetId) })
            sessionId (sendNowCall session req mode)
            (.sendNow sessionId session.client mode),
           .suspended)
      else
        (invoke st sessionId (sendNowCall session req mode)
          (.sendNow sessionId session.client mode),
         .suspended) := by
  unfold sendNowBegin
  simp only [h1, h2, h3, Bool.not_true, Bool.or_self, Bool.false_eq_true, if_false, hkey, hget,
    hready, ne_eq, not_true_eq_false, hmode]

/-- For a ready session and a mode that lower-cases to `mode`: when `mode` is
`scheduled` or `combined` the sheet is written to the session, and the cron is
started if the sheet name converts to a string; with any other mode string
the registry and the cron are as before. -/
theorem sendNowBegin_registers_iff (st : State) (req : Request) (sessionId mode : String)
    (session : Session)
    (h1 : truthy req.sessionId = true) (h2 : truthy req.sheetName = true)
    (h3 : truthy req.spreadsheetId = true) (hkey : toText req.sessionId = some sessionId)
    (hget : getSession st.sessions sessionId = some session)
    (hready : session.status = .READY) (hmode : normalizeMode req.mode = some mode) :
    ((mode = "scheduled" ∨ mode = "combined") →
      getSession (sendNowBegin st req).1.sessions sessionId =
        some (setSchedule req.sheetName req.spreadsheetId session) ∧
      (toText req.sheetName ≠ none → (sendNowBegin st req).1.scheduledCron ≠ none)) ∧
    (¬ (mode = "scheduled" ∨ mode = "combined") →
      (sendNowBegin st req).1.sessions = st.sessions ∧
      (sendNowBegin st req).1.scheduledCron = st.scheduledCron ∧
      (sendNowBegin st req).1.activeTasks = st.activeTasks) := by
  rw [sendNowBegin_ready st req sessionId mode session h1 h2 h3 hkey hget hready hmode]
  have hs : getSession (modify st.sessions sessionId
      (setSchedule req.sheetName req.spreadsheetId)) sessionId =
      some (setSchedule req.sheetName req.spreadsheetId session) := by
    rw [getSession_modify_self, hget]; rfl
  refine ⟨?_, ?_⟩
  · intro hm
    rw [if_pos hm]
    cases ht : toText req.sheetName with
    | none => exact ⟨hs, fun hc => absurd rfl hc⟩
    | some text =>
      refine ⟨?_, fun _ => ?_⟩
      · show getSession (startScheduledCron _).sessions sessionId = _
        rw [startScheduledCron_sessions]; exact hs
      · exact startScheduledCron_isSome _
  · intro hm
    rw [if_neg hm]
    exact ⟨rfl, rfl, rfl⟩

/-- The options are those of combined mode for every mode string other than
`instant` and `scheduled`. -/
theorem optionsOf_combined (mode : String) (h1 : mode ≠ "instant") (h2 : mode ≠ "scheduled") :
    optionsOf mode = { instantMode := false, scheduledMode := false, combinedMode := true } := by
  simp [optionsOf, h1, h2]

/-! ## A run of the callback that finds nothing to do -/

theorem cronRun_idle (outcome : String → Outcome) (st : State) (keys : List String)
    (h : ∀ e ∈ st.sessions, eligible e.2 = false) : cronRun outcome st keys = st := by
  induction keys with
  | nil => rfl
  | cons k rest ih =>
    cases hget : getSession st.sessions k with
    | none =>
      simp only [cronRun, hget]
      exact ih
    | some session =>
      have hne : eligible session = false := h (k, session) (mem_of_getSession _ _ _ hget)
      simp only [cronRun, hget, hne]
      exact ih

/-- The callback stops the cron only from inside the handling of a dispatch
result: a run over a registry without eligible session changes nothing, so a
cron that was running keeps running. -/
theorem cronCallback_idle (outcome : String → Outcome) (st : State)
    (h : ∀ e ∈ st.sessions, eligible e.2 = false) : cronCallback outcome st = st :=
  cronRun_idle outcome st _ h

/-! ## The ordinary life of a registered sheet -/

/-- With `S1` ready and `Sheet1` registered, a tick whose dispatch reports
three messages remaining keeps the sheet and the cron; the next tick, whose
dispatch reports none, deletes the two properties and stops the cron. -/
theorem sheet_polled_until_exhausted :
    (run scheduledS1 [.tick (fun _ => remaining 3)]).sessions = scheduledS1.sessions ∧
    (run scheduledS1 [.tick (fun _ => remaining 3)]).scheduledCron = some 0 ∧
    (run scheduledS1 [.tick (fun _ => remaining 3), .tick (fun _ => remaining 0)]).sessions =
      [("S1", { client := 0, qr := none, status := .READY })] ∧
    (run scheduledS1
      [.tick (fun _ => remaining 3), .tick (fun _ => remaining 0)]).scheduledCron = none ∧
    (run scheduledS1
      [.tick (fun _ => remaining 3), .tick (fun _ => remaining 0)]).activeTasks = [] ∧
    (run scheduledS1
      [.tick (fun _ => remaining 3), .tick (fun _ => remaining 0)]).calls.length = 3 := by
  decide

/-- The two slips that cut a tick short.  With `S1` and `S2` both eligible: a
dispatch for `S1` that rejects with `undefined` makes the `catch` clause throw,
and a sheet of `S1` whose conversion to a string throws makes the log line
before the `try` throw; either way `S2` is not dispatched in that tick. -/
theorem tick_cut_short :
    dispatchedSince twoScheduled
      (cronCallback (fun _ => .rejected .nullish) twoScheduled) = ["S1"] ∧
    dispatchedSince twoScheduled
      (cronCallback (fun _ => .rejected (.error "boom")) twoScheduled) = ["S1", "S2"] ∧
    (run twoScheduled [.request unreadableRequest]).pending = [] ∧
    dispatchedSince (run twoScheduled [.request unreadableRequest])
      (cronCallback (fun _ => remaining 3)
        (run twoScheduled [.request unreadableRequest])) = [] := by
  decide

/-- A truthy mode that is not a string makes `/send-now` throw before any
dispatch and before any answer: the state is as it was. -/
theorem sendNow_throws_on_number_mode :
    sendNowBegin readyS1 ⟨.string "S1", number123, .string "Sheet1", .string "SS1"⟩ =
      (readyS1, .threw) := by
  decide

/-- While some session of the registry has a registered sheet that converts
to a string, `scheduledCron` is non-null and its task is active, in every
state the process can reach. -/
theorem readable_sheet_implies_cron_running (actions : List Action) :
    (∃ e ∈ (run init actions).sessions, hasReadableSheet e.2 = true) →
    (run init actions).scheduledCron ≠ none ∧ (run init actions).activeTasks ≠ [] := by
  intro hex
  have hcron := run_schedInv actions hex
  refine ⟨hcron, ?_⟩
  have ht : (run init actions).activeTasks = (run init actions).scheduledCron.toList :=
    run_timerInv actions
  rw [ht]
  cases hc : (run init actions).scheduledCron with
  | none => exact absurd hc hcron
  | some t => simp

/-! ## The authentication challenge -/

/-- C1, counterexample: for session `S1`, created, given the QR payload
`X` and then reported ready, the status is `READY` while the payload `X` is
still stored, so "payload present iff status `QR_READY`" fails in a reachable
state. -/
theorem qr_kept_after_ready :
    getSession (run init [.create "S1", .event "S1" (.qr "X"), .event "S1" .ready]).sessions "S1"
      = some { client := 0, qr := some "X", status := .READY } ∧
    ¬ (∀ e ∈ (run init [.create "S1", .event "S1" (.qr "X"), .event "S1" .ready]).sessions,
        (e.2.qr ≠ none ↔ e.2.status = .QR_READY)) := by
  decide

/-- C1, amended: in every state reachable from the initial one, every
session of the registry whose status is `QR_READY` holds a QR payload; and
for a session of the registry, `qr(payload)` gives status `QR_READY` with
that payload, and a following `ready` gives status `READY` with the payload
still in place. -/
theorem qr_ready_holds_challenge (actions : List Action) :
    (∀ e ∈ (run init actions).sessions, e.2.status = .QR_READY → e.2.qr ≠ none) ∧
    (∀ (sessionId payload : String) (s : Session),
      getSession (run init actions).sessions sessionId = some s →
      getSession (run (run init actions) [.event sessionId (.qr payload)]).sessions sessionId =
          some { s with qr := some payload, status := .QR_READY } ∧
      getSession (run (run init actions)
          [.event sessionId (.qr payload), .event sessionId .ready]).sessions sessionId =
          some { s with qr := some payload, status := .READY }) := by
  refine ⟨qrReady_has_qr actions, ?_⟩
  intro sessionId payload s h
  have hq := step_qr_getSession (run init actions) sessionId payload s h
  refine ⟨hq, ?_⟩
  exact step_ready_getSession _ sessionId _ hq

/-- C1, witness: session `S1` after `qr("X")`, and after `qr("X")` then `ready`. -/
theorem qr_ready_holds_challenge_witness :
    (("S1", ({ client := 0, qr := some "X", status := .QR_READY } : Session)) ∈
        (run init [.create "S1", .event "S1" (.qr "X")]).sessions ∧
      ({ client := 0, qr := some "X", status := .QR_READY } : Session).qr ≠ none) ∧
    (getSession (run init [.create "S1"]).sessions "S1" =
        some { client := 0, qr := none, status := .INITIALIZING } ∧
      getSession (run (run init [.create "S1"])
          [.event "S1" (.qr "X"), .event "S1" .ready]).sessions "S1" =
        some { client := 0, qr := some "X", status := .READY }) :=
  ⟨⟨by decide,
    (qr_ready_holds_challenge [.create "S1", .event "S1" (.qr "X")]).1
      ("S1", { client := 0, qr := some "X", status := .QR_READY }) (by decide) rfl⟩,
   ⟨by decide,
    ((qr_ready_holds_challenge [.create "S1"]).2 "S1" "X"
      { client := 0, qr := none, status := .INITIALIZING } (by decide)).2⟩⟩

/-! ## Dispatch calls in flight -/

/-- C2, counterexample: session `S1` is ready with a registered sheet and a
running cron.  The cron fires and its dispatch call for `S1` is in flight
when a `/send-now` request for `S1` arrives: the request invokes the dispatch
service again, so two calls for the client of `S1` are in flight at once, and
the only response sent so far is the 200 of the earlier request. -/
theorem two_dispatches_in_flight :
    inFlightFor (run scheduledS1 [.fire]) 0 = 1 ∧
    inFlightFor (run scheduledS1 [.fire, .request (sendReq "S1" "instant")]) 0 = 2 ∧
    (run scheduledS1 [.fire, .request (sendReq "S1" "instant")]).calls.length =
      (run scheduledS1 [.fire]).calls.length + 1 ∧
    (run scheduledS1 [.fire, .request (sendReq "S1" "instant")]).responses =
      [.ok "scheduled" (.object (.number 3)) true] := by
  decide

/-- C2, amended: the handler of `/send-now` has no guard on dispatch calls
in flight.  For every state, whatever calls are in flight, a request that
gets through the handler (truthy `sessionId`, `sheetName` and `spreadsheetId`,
a session with status `READY` under the key `sessionId` converts to, a mode
that is falsy or a string, and, when the lower-cased mode is `scheduled` or
`combined`, a `sheetName` that converts to a string) is not answered before
its own dispatch: it invokes the dispatch service once, with the client of the
session, and the number of calls in flight for that client grows by one. -/
theorem sendNow_dispatches_whatever_in_flight (st : State) (req : Request)
    (sessionId mode : String) (session : Session)
    (h1 : truthy req.sessionId = true) (h2 : truthy req.sheetName = true)
    (h3 : truthy req.spreadsheetId = true) (hkey : toText req.sessionId = some sessionId)
    (hget : getSession st.sessions sessionId = some session)
    (hready : session.status = .READY) (hmode : normalizeMode req.mode = some mode)
    (hsheet : (mode = "scheduled" ∨ mode = "combined") → toText req.sheetName ≠ none) :
    (sendNowBegin st req).2 = .suspended ∧
    (sendNowBegin st req).1.calls =
      st.calls ++ [(sessionId,
        { client := session.client, sheetName := req.sheetName,
          options := optionsOf mode, spreadsheetId := req.spreadsheetId })] ∧
    inFlightFor (sendNowBegin st req).1 session.client =
      inFlightFor st session.client + 1 := by
  rw [sendNowBegin_ready st req sessionId mode session h1 h2 h3 hkey hget hready hmode]
  by_cases hm : mode = "scheduled" ∨ mode = "combined"
  · rw [if_pos hm]
    cases ht : toText req.sheetName with
    | none => exact absurd ht (hsheet hm)
    | some text =>
      simp [invoke, sendNowCall, inFlightFor, List.filter_append]
  · rw [if_neg hm]
    simp [invoke, sendNowCall, inFlightFor, List.filter_append]

/-- C2, witness: an instant request for `S1` while the cron call for `S1` is in flight. -/
theorem sendNow_dispatches_whatever_in_flight_witness :
    (truthy (sendReq "S1" "instant").sessionId = true ∧
      truthy (sendReq "S1" "instant").sheetName = true ∧
      truthy (sendReq "S1" "instant").spreadsheetId = true ∧
      toText (sendReq "S1" "instant").sessionId = some "S1" ∧
      getSession (run scheduledS1 [.fire]).sessions "S1" =
        some { client := 0, qr := none, status := .READY,
               sheetToSchedule := .string "Sheet1",
               spreadsheetIdToSchedule := .string "SS1" } ∧
      normalizeMode (sendReq "S1" "instant").mode = some "instant") ∧
    inFlightFor (run scheduledS1 [.fire]) 0 = 1 ∧
    inFlightFor (sendNowBegin (run scheduledS1 [.fire]) (sendReq "S1" "instant")).1 0 =
      inFlightFor (run scheduledS1 [.fire]) 0 + 1 :=
  ⟨⟨by decide, by decide, by decide, by decide, by decide, by decide⟩,
   by decide,
   (sendNow_dispatches_whatever_in_flight (run scheduledS1 [.fire]) (sendReq "S1" "instant")
      "S1" "instant"
      { client := 0, qr := none, status := .READY,
        sheetToSchedule := .string "Sheet1", spreadsheetIdToSchedule := .string "SS1" }
      (by decide) (by decide) (by decide) (by decide) (by decide) rfl (by decide)
      (by decide)).2.2⟩

/-! ## Starting and stopping the cron -/

/-- C3, the code at the failing input: session `S1` had its sheet
registered (cron running) and was then removed by `disconnected`.  The
registry is empty, yet after a complete run of the cron callback
`scheduledCron` still holds the task and the task is still active. -/
theorem cron_keeps_running_without_work :
    disconnectedS1.sessions = [] ∧
    disconnectedS1.scheduledCron = some 0 ∧
    (step disconnectedS1 (.tick (fun _ => remaining 0))).sessions = [] ∧
    (step disconnectedS1 (.tick (fun _ => remaining 0))).scheduledCron = some 0 ∧
    (step disconnectedS1 (.tick (fun _ => remaining 0))).activeTasks = [0] := by
  decide

/-- C4, the code at the failing input: session `S1` is ready and a
`/send-now` request in scheduled mode arrives whose `sheetName` is the object
`{"toString": 1}`.  The two assignments register the sheet on the session;
the log line that follows throws on the conversion of `sheetName` to a string,
so `startScheduledCron()` is never reached: a session of the registry has
`sheetToSchedule` set while `scheduledCron` is null and no task is active. -/
theorem sheet_registered_cron_not_started :
    (sendNowBegin readyS1 unreadableRequest).2 = .threw ∧
    getSession (run init [.create "S1", .event "S1" .ready,
        .request unreadableRequest]).sessions "S1" =
      some { client := 0, qr := none, status := .READY,
             sheetToSchedule := .other true none,
             spreadsheetIdToSchedule := .string "SS1" } ∧
    someScheduled (run init [.create "S1", .event "S1" .ready,
        .request unreadableRequest]).sessions = true ∧
    (run init [.create "S1", .event "S1" .ready,
        .request unreadableRequest]).scheduledCron = none ∧
    (run init [.create "S1", .event "S1" .ready,
        .request unreadableRequest]).activeTasks = [] ∧
    (run init [.create "S1", .event "S1" .ready,
        .request unreadableRequest]).calls = [] := by
  decide

/-! ## What one run of the cron callback does -/

/-- C5, counterexample: `S1` and `S2` are both ready with a registered
sheet.  A first tick is suspended on its call for `S2` when the cron fires
again.  The second tick finds `S1` and `S2` eligible and dispatches `S1`;
while it waits, the call of the first tick for `S2` reports no message
remaining and the schedule of `S2` is deleted; resumed, the second tick finds
`S2` not eligible.  No event and no request took place, every tick has
finished, and the second tick dispatched `S1` only. -/
theorem overlapping_tick_skips_session :
    (midTick.sessions.filter (fun e => eligible e.2)).map Prod.fst = ["S1", "S2"] ∧
    midTick.pending.map (fun p => p.cont) = [.cron "S2" 1 []] ∧
    (run midTick [.fire, .settle 0 (remaining 0), .settle 0 (remaining 3)]).pending = [] ∧
    dispatchedSince midTick
      (run midTick [.fire, .settle 0 (remaining 0), .settle 0 (remaining 3)]) = ["S1"] := by
  decide

/-- C5, amended: for every registry (with pairwise distinct keys), one run
of the cron callback that nothing interleaves with (no event, no request and
no other tick between its dispatch calls) and in which nothing throws (no
eligible session has a sheet whose conversion to a string throws, no call
rejects with `null` or `undefined`) invokes the dispatch service exactly for
the entries that are `READY` with both schedule properties set when the run
begins, once each and in registry order, whatever each call resolves with or
whatever error it rejects with; each such call carries the client, sheet and
spreadsheet of its session and the options of scheduled-only mode. -/
theorem tick_dispatches_each_eligible_session_once (outcome : String → Outcome) (st : State)
    (hn : KeysNodup st.sessions)
    (hsafe : ∀ e ∈ st.sessions, eligible e.2 = true →
      toText e.2.sheetToSchedule ≠ none ∧ outcome e.1 ≠ .rejected .nullish) :
    (cronCallback outcome st).calls =
      st.calls ++
        (st.sessions.filter (fun e => eligible e.2)).map (fun e => (e.1, cronCall e.2)) ∧
    (∀ s : Session,
      (cronCall s).client = s.client ∧
      (cronCall s).sheetName = s.sheetToSchedule ∧
      (cronCall s).spreadsheetId = s.spreadsheetIdToSchedule ∧
      (cronCall s).options =
        { instantMode := false, scheduledMode := true, combinedMode := false }) := by
  refine ⟨cronCallback_calls outcome st hn ?_, fun s => ⟨rfl, rfl, rfl, rfl⟩⟩
  intro e he hel
  obtain ⟨h1, h2⟩ := hsafe e he hel
  refine ⟨h1, ?_⟩
  cases hc : catchThrows (outcome e.1) with
  | false => rfl
  | true => exact absurd ((catchThrows_iff _).mp hc) h2

/-- C5, witness: two eligible sessions, every dispatch call rejected with an error. -/
theorem tick_dispatches_each_eligible_session_once_witness :
    (KeysNodup twoScheduled.sessions ∧
      ∀ e ∈ twoScheduled.sessions, eligible e.2 = true →
        toText e.2.sheetToSchedule ≠ none ∧
        (fun _ => Outcome.rejected (.error "boom")) e.1 ≠ Outcome.rejected .nullish) ∧
    (cronCallback (fun _ => .rejected (.error "boom")) twoScheduled).calls =
      twoScheduled.calls ++
        (twoScheduled.sessions.filter (fun e => eligible e.2)).map
          (fun e => (e.1, cronCall e.2)) :=
  ⟨⟨by decide, by decide⟩,
   (tick_dispatches_each_eligible_session_once (fun _ => .rejected (.error "boom"))
      twoScheduled (by decide) (by decide)).1⟩

/-- C6, counterexample: `S1` is ready with a registered sheet and the cron
fires twice before any call settles.  The call of the first tick reports no
message remaining: the schedule is deleted and the cron stopped.  The call of
the second tick then reports three messages remaining, and when that tick has
finished the schedule of `S1` is absent, not as it was when the tick began. -/
theorem overlapping_tick_clears_after_nonzero :
    getSession (run scheduledS1 [.fire]).sessions "S1" =
      some { client := 0, qr := none, status := .READY,
             sheetToSchedule := .string "Sheet1",
             spreadsheetIdToSchedule := .string "SS1" } ∧
    dispatchedSince (run scheduledS1 [.fire]) (run scheduledS1 [.fire, .fire]) = ["S1"] ∧
    (run scheduledS1 [.fire, .fire, .settle 0 (remaining 0)]).pending.map (fun p => p.cont) =
      [.cron "S1" 0 []] ∧
    (run scheduledS1
      [.fire, .fire, .settle 0 (remaining 0), .settle 0 (remaining 3)]).pending = [] ∧
    getSession (run scheduledS1
      [.fire, .fire, .settle 0 (remaining 0), .settle 0 (remaining 3)]).sessions "S1" =
      some { client := 0, qr := none, status := .READY,
             sheetToSchedule := .absent, spreadsheetIdToSchedule := .absent } := by
  decide

/-- C6, amended: for every registry (with pairwise distinct keys) and every
run of the cron callback that nothing interleaves with (no event, no request
and no other tick between its dispatch calls), whatever the outcomes of the
calls: every entry `(sessionId, s)` the run dispatches was eligible when the
run began and is still there after it; `sheetToSchedule` is absent iff the
call for `sessionId` resolved with `scheduledMessagesRemaining` the number
`0`, and likewise `spreadsheetIdToSchedule`; with any other outcome (another
number, no number, a falsy result, a rejection) the session is exactly as it
was. -/
theorem tick_clears_schedule_iff_zero_remaining (outcome : String → Outcome) (st : State)
    (hn : KeysNodup st.sessions) (sessionId : String) (s : Session)
    (hmem : (sessionId, s) ∈ st.sessions)
    (hdisp : sessionId ∈ dispatchedSince st (cronCallback outcome st)) :
    eligible s = true ∧
    ∃ s1, getSession (cronCallback outcome st).sessions sessionId = some s1 ∧
      (s1.sheetToSchedule = .absent ↔ outcome sessionId = .resolved (.object (.number 0))) ∧
      (s1.spreadsheetIdToSchedule = .absent ↔
        outcome sessionId = .resolved (.object (.number 0))) ∧
      (outcome sessionId = .resolved (.object (.number 0)) → s1 = clearSchedule s) ∧
      (outcome sessionId ≠ .resolved (.object (.number 0)) → s1 = s) := by
  have hget : getSession st.sessions sessionId = some s :=
    getSession_of_mem st.sessions hn (sessionId, s) hmem
  obtain ⟨made, hcalls, _, hmade, hsessions⟩ :=
    cronRun_effect outcome (st.sessions.map Prod.fst) st hn
  have hsince : dispatchedSince st (cronCallback outcome st) = made.map Prod.fst := by
    unfold dispatchedSince cronCallback
    rw [hcalls, List.drop_left]
  rw [hsince] at hdisp
  obtain ⟨p, hp, hpk⟩ := List.mem_map.mp hdisp
  obtain ⟨s0, hs0, hel0, _⟩ := hmade p hp
  rw [hpk, hget] at hs0
  cases hs0
  have hrun := hsessions sessionId
  rw [hget] at hrun
  simp only [Option.map_some', hdisp, true_and] at hrun
  obtain ⟨_, ht1, ht2⟩ := eligible_sheet s hel0
  have hs1 : s.sheetToSchedule ≠ .absent := by
    intro hc; rw [hc] at ht1; cases ht1
  have hs2 : s.spreadsheetIdToSchedule ≠ .absent := by
    intro hc; rw [hc] at ht2; cases ht2
  refine ⟨hel0, ?_⟩
  by_cases hz : settledZero (outcome sessionId) = true
  · have hzero := (settledZero_iff _).mp hz
    rw [if_pos hz] at hrun
    refine ⟨clearSchedule s, hrun, ?_, ?_, ?_, ?_⟩
    · exact ⟨fun _ => hzero, fun _ => rfl⟩
    · exact ⟨fun _ => hzero, fun _ => rfl⟩
    · intro _; rfl
    · intro hc; exact absurd hzero hc
  · have hnz : outcome sessionId ≠ .resolved (.object (.number 0)) :=
      fun hc => hz ((settledZero_iff _).mpr hc)
    rw [if_neg hz] at hrun
    refine ⟨s, hrun, ?_, ?_, ?_, ?_⟩
    · exact ⟨fun hc => absurd hc hs1, fun hc => absurd hc hnz⟩
    · exact ⟨fun hc => absurd hc hs2, fun hc => absurd hc hnz⟩
    · intro hc; exact absurd hc hnz
    · intro _; rfl

/-- C6, witness: session `S1` when its call reports three messages remaining. -/
theorem tick_clears_schedule_iff_zero_remaining_witness :
    (KeysNodup twoScheduled.sessions ∧
      ("S1", ({ client := 0, qr := none, status := .READY,
                sheetToSchedule := .string "Sheet1",
                spreadsheetIdToSchedule := .string "SS1" } : Session)) ∈
        twoScheduled.sessions ∧
      "S1" ∈ dispatchedSince twoScheduled
        (cronCallback (fun _ => remaining 3) twoScheduled)) ∧
    ∃ s1, getSession (cronCallback (fun _ => remaining 3) twoScheduled).sessions "S1" =
        some s1 ∧
      (s1.sheetToSchedule = .absent ↔ remaining 3 = .resolved (.object (.number 0))) ∧
      (s1.spreadsheetIdToSchedule = .absent ↔
        remaining 3 = .resolved (.object (.number 0))) ∧
      (remaining 3 = .resolved (.object (.number 0)) →
        s1 = clearSchedule { client := 0, qr := none, status := .READY,
                             sheetToSchedule := .string "Sheet1",
                             spreadsheetIdToSchedule := .string "SS1" }) ∧
      (remaining 3 ≠ .resolved (.object (.number 0)) →
        s1 = { client := 0, qr := none, status := .READY,
               sheetToSchedule := .string "Sheet1",
               spreadsheetIdToSchedule := .string "SS1" }) :=
  ⟨⟨by decide, by decide, by decide⟩,
   (tick_clears_schedule_iff_zero_remaining (fun _ => remaining 3) twoScheduled (by decide)
     "S1"
     { client := 0, qr := none, status := .READY,
       sheetToSchedule := .string "Sheet1", spreadsheetIdToSchedule := .string "SS1" }
     (by decide) (by decide)).2⟩

/-! ## Registration by `/send-now` -/

/-- C7, the code at the failing input: session `S1` is ready and a
`/send-now` request arrives with mode `foo`.  The dispatch service is invoked
with the options of combined mode, but no sheet is registered on the session
and the cron is not started. -/
theorem unrecognised_mode_dispatches_combined_without_registering :
    (sendNowBegin readyS1 (sendReq "S1" "foo")).2 = .suspended ∧
    (sendNowBegin readyS1 (sendReq "S1" "foo")).1.calls =
      [("S1",
        { client := 0, sheetName := .string "Sheet1",
          options := { instantMode := false, scheduledMode := false, combinedMode := true },
          spreadsheetId := .string "SS1" })] ∧
    getSession (sendNowBegin readyS1 (sendReq "S1" "foo")).1.sessions "S1" =
      some { client := 0, qr := none, status := .READY,
             sheetToSchedule := .absent, spreadsheetIdToSchedule := .absent } ∧
    (sendNowBegin readyS1 (sendReq "S1" "foo")).1.scheduledCron = none ∧
    (sendNowBegin readyS1 (sendReq "S1" "foo")).1.activeTasks = [] ∧
    (sendNowBegin readyS1 (sendReq "S1" "combined")).1.calls =
      (sendNowBegin readyS1 (sendReq "S1" "foo")).1.calls ∧
    getSession (sendNowBegin readyS1 (sendReq "S1" "combined")).1.sessions "S1" =
      some { client := 0, qr := none, status := .READY,
             sheetToSchedule := .string "Sheet1",
             spreadsheetIdToSchedule := .string "SS1" } ∧
    (sendNowBegin readyS1 (sendReq "S1" "combined")).1.scheduledCron = some 0 := by
  decide

/-! ## Creating a session under a key in use -/

/-- C8, counterexample: `S1` is ready with a registered sheet; a second
`createSession("S1")` neither fails nor leaves the entry alone: status,
client handle and schedule properties of the entry all change. -/
theorem createSession_overwrites_existing :
    getSession scheduledS1.sessions "S1" =
      some { client := 0, qr := none, status := .READY,
             sheetToSchedule := .string "Sheet1",
             spreadsheetIdToSchedule := .string "SS1" } ∧
    getSession (createSession scheduledS1 "S1").sessions "S1" =
      some { client := 1, qr := none, status := .INITIALIZING,
             sheetToSchedule := .absent, spreadsheetIdToSchedule := .absent } ∧
    getSession (createSession scheduledS1 "S1").sessions "S1" ≠
      getSession scheduledS1.sessions "S1" := by
  decide

/-- C8, amended: in every state the process can reach, for every id that
already has a session in the registry, `createSession(id)` raises nothing and
is not a no-op: it replaces the entry by a new session with status
`INITIALIZING`, no QR payload, no schedule properties and a client handle
that differs from the one of the old session (and from every handle in the
registry), so the entry and the registry change.  The keys of the registry
are the same as before, so the registry holds exactly one session for that
id, and the sessions under the other ids are unchanged. -/
theorem createSession_replaces_existing (actions : List Action) (sessionId : String)
    (old : Session) (hget : getSession (run init actions).sessions sessionId = some old) :
    getSession (createSession (run init actions) sessionId).sessions sessionId =
      some { client := (run init actions).nextClient, qr := none, status := .INITIALIZING,
             sheetToSchedule := .absent, spreadsheetIdToSchedule := .absent } ∧
    (∀ e ∈ (run init actions).sessions, e.2.client ≠ (run init actions).nextClient) ∧
    old.client ≠ (run init actions).nextClient ∧
    getSession (createSession (run init actions) sessionId).sessions sessionId ≠ some old ∧
    (createSession (run init actions) sessionId).sessions ≠ (run init actions).sessions ∧
    (createSession (run init actions) sessionId).sessions.map Prod.fst =
      (run init actions).sessions.map Prod.fst ∧
    ((createSession (run init actions) sessionId).sessions.map Prod.fst).count sessionId = 1 ∧
    (∀ k, k ≠ sessionId →
      getSession (createSession (run init actions) sessionId).sessions k =
        getSession (run init actions).sessions k) := by
  obtain ⟨hn, hfresh⟩ := run_wellFormed actions
  generalize run init actions = st at hget hn hfresh
  have hkeys := keys_assign_of_some st.sessions sessionId
    { client := st.nextClient, qr := none, status := .INITIALIZING } old hget
  have hnew : getSession (createSession st sessionId).sessions sessionId =
      some { client := st.nextClient, qr := none, status := .INITIALIZING } :=
    getSession_assign_self _ _ _
  have hold : old.client ≠ st.nextClient :=
    Nat.ne_of_lt (hfresh (sessionId, old) (mem_of_getSession _ _ _ hget))
  have hne : getSession (createSession st sessionId).sessions sessionId ≠ some old := by
    rw [hnew]
    intro hc
    cases hc
    exact hold rfl
  refine ⟨hnew, fun e he => Nat.ne_of_lt (hfresh e he), hold, hne, ?_, hkeys, ?_, ?_⟩
  · intro hc
    rw [hc, hget] at hne
    exact hne rfl
  · show (List.map Prod.fst (assign st.sessions sessionId _)).count sessionId = 1
    rw [hkeys]
    exact List.count_eq_one_of_mem hn (mem_keys_of_getSession _ _ _ hget)
  · intro k hk
    exact getSession_assign_other _ _ _ _ hk

/-- C8, witness: `createSession("S1")` with `S1` ready and its sheet registered. -/
theorem createSession_replaces_existing_witness :
    getSession (run init [.create "S1", .event "S1" .ready,
        .request (sendReq "S1" "scheduled")]).sessions "S1" =
      some { client := 0, qr := none, status := .READY,
             sheetToSchedule := .string "Sheet1",
             spreadsheetIdToSchedule := .string "SS1" } ∧
    getSession (createSession (run init [.create "S1", .event "S1" .ready,
        .request (sendReq "S1" "scheduled")]) "S1").sessions "S1" ≠
      some { client := 0, qr := none, status := .READY,
             sheetToSchedule := .string "Sheet1",
             spreadsheetIdToSchedule := .string "SS1" } :=
  ⟨by decide,
   (createSession_replaces_existing
      [.create "S1", .event "S1" .ready, .request (sendReq "S1" "scheduled")] "S1"
      { client := 0, qr := none, status := .READY,
        sheetToSchedule := .string "Sheet1", spreadsheetIdToSchedule := .string "SS1" }
      (by decide)).2.2.2.1⟩

/-! ## Events for a session that is gone -/

/-- C9, the code at the failing input: `S1` is created and then removed by
`disconnected`.  A `qr`, `ready` or `auth_failure` event delivered afterwards
makes its listener throw a `TypeError`; only a second `disconnected` is
handled without error. -/
theorem events_after_disconnect_throw :
    (run init [.create "S1", .event "S1" .disconnected]).sessions = [] ∧
    handleEvent (run init [.create "S1", .event "S1" .disconnected]) "S1" (.qr "X") =
      .error .typeError ∧
    handleEvent (run init [.create "S1", .event "S1" .disconnected]) "S1" .ready =
      .error .typeError ∧
    handleEvent (run init [.create "S1", .event "S1" .disconnected]) "S1" .authFailure =
      .error .typeError ∧
    handleEvent (run init [.create "S1", .event "S1" .disconnected]) "S1" .disconnected =
      .ok (run init [.create "S1", .event "S1" .disconnected]) :=
  ⟨rfl, rfl, rfl, rfl, rfl⟩

/-! ## One cron task at a time -/

/-- C10: after every sequence of direct calls of `startScheduledCron` and
`stopScheduledCron` and of steps of the process (cron runs included), the
active cron tasks are exactly the one held by `scheduledCron`: at most one,
and one iff the variable is non-null.  In such a state, `startScheduledCron`
with the variable set changes nothing, `stopScheduledCron` with the variable
null changes nothing, and `stopScheduledCron` with the variable set leaves no
active task and the variable null. -/
theorem one_cron_task_iff_scheduledCron (ops : List CronOp) :
    (runOps init ops).activeTasks = (runOps init ops).scheduledCron.toList ∧
    (runOps init ops).activeTasks.length ≤ 1 ∧
    ((runOps init ops).activeTasks ≠ [] ↔ (runOps init ops).scheduledCron ≠ none) ∧
    ((runOps init ops).scheduledCron ≠ none →
      startScheduledCron (runOps init ops) = runOps init ops) ∧
    ((runOps init ops).scheduledCron = none →
      stopScheduledCron (runOps init ops) = runOps init ops) ∧
    ((runOps init ops).scheduledCron ≠ none →
      (stopScheduledCron (runOps init ops)).scheduledCron = none ∧
      (stopScheduledCron (runOps init ops)).activeTasks = []) := by
  have hinv : (runOps init ops).activeTasks = (runOps init ops).scheduledCron.toList :=
    runOps_timerInv ops init rfl
  have hstop := stopScheduledCron_timerInv hinv
  unfold TimerInv at hstop
  generalize runOps init ops = st at hinv hstop
  cases hc : st.scheduledCron with
  | none =>
    rw [hc] at hinv
    refine ⟨by simpa using hinv, by simp [hinv], by simp [hinv], ?_, ?_, ?_⟩
    · intro h; exact absurd rfl h
    · intro _; simp [stopScheduledCron, hc]
    · intro h; exact absurd rfl h
  | some t =>
    rw [hc] at hinv
    have hnone : (stopScheduledCron st).scheduledCron = none := by
      simp [stopScheduledCron, hc]
    refine ⟨by simpa using hinv, by simp [hinv], by simp [hinv], ?_, ?_, ?_⟩
    · intro _; simp [startScheduledCron, hc]
    · intro h; cases h
    · intro _
      refine ⟨hnone, ?_⟩
      rw [hstop, hnone]; rfl

/-- C10, witness: the cron started twice, and the cron started then stopped. -/
theorem one_cron_task_iff_scheduledCron_witness :
    ((runOps init [.start, .start]).scheduledCron ≠ none ∧
      startScheduledCron (runOps init [.start, .start]) = runOps init [.start, .start] ∧
      (stopScheduledCron (runOps init [.start, .start])).scheduledCron = none ∧
      (stopScheduledCron (runOps init [.start, .start])).activeTasks = []) ∧
    ((runOps init [.start, .stop]).scheduledCron = none ∧
      stopScheduledCron (runOps init [.start, .stop]) = runOps init [.start, .stop]) :=
  ⟨⟨by decide,
    (one_cron_task_iff_scheduledCron [.start, .start]).2.2.2.1 (by decide),
    (one_cron_task_iff_scheduledCron [.start, .start]).2.2.2.2.2 (by decide)⟩,
   ⟨by decide,
    (one_cron_task_iff_scheduledCron [.start, .stop]).2.2.2.2.1 (by decide)⟩⟩

end WhatsappBot
